import Mathlib

/-!
Verification of the signaling/room broker in src/server/socket/handler.js.

The broker is embedded shallowly as a state machine: the process-wide
containers (roomParticipants, broadcastRegistry, chatLimiter) together with
the connected sockets and the persistent Room store form a ServerState;
every socket event handler becomes a function from a state and an inbound
event to a new state plus the list of outbound emissions.  JavaScript
values that undergo truthiness or typeof checks are embedded as the JsVal
inductive; JSON.stringify is modelled by the stringify function below.

Delivery semantics: per the broker model, a room fan-out reaches the room
roster (the participants map, which the source keeps in lockstep with the
underlying transport rooms), socket.to additionally excludes the sender,
and a direct-addressed envelope reaches the target connection when it is
still connected.  Map containers are embedded as insertion-ordered
association lists with JS Map semantics (set replaces in place, delete
removes).
-/

/-- A JavaScript value as far as the broker inspects one: enough structure
for truthiness, typeof checks and JSON serialization.  The bigintV
constructor stands for values whose JSON serialization throws
(e.g. BigInt). -/
inductive JsVal where
  | undef : JsVal
  | null : JsVal
  | boolV (b : Bool) : JsVal
  | num (n : Int) : JsVal
  | str (s : String) : JsVal
  | arr (xs : List JsVal) : JsVal
  | obj (fields : List (String × JsVal)) : JsVal
  | bigintV (n : Int) : JsVal
deriving Repr

/-- JavaScript truthiness of an embedded value. -/
def truthy : JsVal → Bool
  | .undef => false
  | .null => false
  | .boolV b => b
  | .num n => decide (n ≠ 0)
  | .str s => decide (s ≠ "")
  | .arr _ => true
  | .obj _ => true
  | .bigintV n => decide (n ≠ 0)

/-- typeof v === "string". -/
def JsVal.isString : JsVal → Bool
  | .str _ => true
  | _ => false

/-- typeof v === "boolean". -/
def JsVal.isBool : JsVal → Bool
  | .boolV _ => true
  | _ => false

/-- The underlying string of a string value (only used under isString). -/
def JsVal.asString : JsVal → String
  | .str s => s
  | _ => ""

/-- The underlying boolean of a boolean value (only used under isBool). -/
def JsVal.asBool : JsVal → Bool
  | .boolV b => b
  | _ => false

/-- One escaped character of a JSON string literal, as JSON.stringify
produces it. -/
def jsonEscapeChar (c : Char) : String :=
  if c = '"' then "\\\""
  else if c = '\\' then "\\\\"
  else if c = '\n' then "\\n"
  else if c = '\r' then "\\r"
  else if c = '\t' then "\\t"
  else if c.toNat < 32 then "\\u00" ++ (Nat.toDigits 16 c.toNat).asString
  else String.singleton c

/-- Body of a JSON string literal. -/
def jsonEscape (s : String) : String :=
  String.join (s.toList.map jsonEscapeChar)

mutual

/-- Model of JSON.stringify: none when serialization throws (or when the
top-level value serializes to no JSON text at all, as for undefined, in
which case the source's length access throws inside the try block). -/
def stringify : JsVal → Option String
  | .undef => none
  | .bigintV _ => none
  | .null => some "null"
  | .boolV b => some (if b then "true" else "false")
  | .num n => some (toString n)
  | .str s => some ("\"" ++ jsonEscape s ++ "\"")
  | .arr xs => do
      let ss ← stringifyArr xs
      some ("[" ++ String.intercalate "," ss ++ "]")
  | .obj fs => do
      let ss ← stringifyObj fs
      some ("\x7b" ++ String.intercalate "," ss ++ "\x7d")

/-- Array elements: undefined serializes as null, a throwing element
propagates the throw. -/
def stringifyArr : List JsVal → Option (List String)
  | [] => some []
  | x :: xs => do
      let rest ← stringifyArr xs
      match x with
      | .undef => some ("null" :: rest)
      | _ => do
          let s ← stringify x
          some (s :: rest)

/-- Object fields: undefined-valued fields are omitted, a throwing value
propagates the throw. -/
def stringifyObj : List (String × JsVal) → Option (List String)
  | [] => some []
  | (k, v) :: fs => do
      let rest ← stringifyObj fs
      match v with
      | .undef => some rest
      | _ => do
          let s ← stringify v
          some (("\"" ++ jsonEscape k ++ "\":" ++ s) :: rest)

end

/-- Socket identifiers are the opaque connection ids assigned by the
transport. -/
abbrev SocketId := String

/-- Per-socket data (socket.data in the source). -/
structure SocketData where
  userId : Option String
  username : String
  roomId : Option String
  broadcastId : Option String
deriving Repr, DecidableEq

/-- Per-room, per-connection presence record, as stored in
roomParticipants. -/
structure ParticipantInfo where
  userId : Option String
  username : String
  muted : Bool
  videoOff : Bool
  handRaised : Bool
  screenSharing : Bool
deriving Repr, DecidableEq

/-- Chat rate limiter entry (chatLimiter values). -/
structure RateEntry where
  count : Nat
  resetAt : Nat
deriving Repr, DecidableEq

/-- A chat message as constructed by the chat-message handler. -/
structure ChatMsg where
  messageId : String
  userId : Option String
  username : String
  message : String
  timestamp : Nat
  reactions : List (String × List String)
deriving Repr, DecidableEq

/-- Persistent Room document fields the broker reads or writes. -/
structure RoomRecord where
  creator : String
  waitingRoom : List String
  chatMessages : List ChatMsg
deriving Repr, DecidableEq

/-- Lookup in an insertion-ordered association list (JS Map.get). -/
def alGet {β : Type} : List (String × β) → String → Option β
  | [], _ => none
  | p :: rest, k => if p.1 == k then some p.2 else alGet rest k

/-- Insertion or in-place update (JS Map.set). -/
def alSet {β : Type} : List (String × β) → String → β → List (String × β)
  | [], k, v => [(k, v)]
  | (k', v') :: rest, k, v =>
      if k' == k then (k, v) :: rest else (k', v') :: alSet rest k v

/-- Deletion (JS Map.delete). -/
def alDel {β : Type} (l : List (String × β)) (k : String) : List (String × β) :=
  l.filter (fun p => p.1 != k)

/-- The whole broker state: connected sockets with their data, the three
process-wide in-memory containers, and the persistent Room store. -/
structure ServerState where
  sockets : List (SocketId × SocketData)
  roomParticipants : List (String × List (SocketId × ParticipantInfo))
  broadcastRegistry : List (String × SocketId)
  chatLimiter : List (SocketId × RateEntry)
  rooms : List (String × RoomRecord)
deriving Repr, DecidableEq

/-- The state of the freshly started broker process. -/
def initialState : ServerState :=
  { sockets := [], roomParticipants := [], broadcastRegistry := [],
    chatLimiter := [], rooms := [] }

/-- messages per window (CHAT_RATE_LIMIT). -/
def CHAT_RATE_LIMIT : Nat := 10

/-- window length in milliseconds (CHAT_RATE_WINDOW). -/
def CHAT_RATE_WINDOW : Nat := 10000

/-- max serialized payload size for relayed signaling data
(MAX_PAYLOAD_SIZE, 64 KB). -/
def MAX_PAYLOAD_SIZE : Nat := 65536

/-- checkChatRate(socketId) from the source, with the mutable map passed
explicitly and Date.now() as the argument now. -/
def checkChatRate (limiter : List (SocketId × RateEntry)) (sid : SocketId)
    (now : Nat) : Bool × List (SocketId × RateEntry) :=
  let entry : RateEntry :=
    match alGet limiter sid with
    | some e => if now > e.resetAt then ⟨0, now + CHAT_RATE_WINDOW⟩ else e
    | none => ⟨0, now + CHAT_RATE_WINDOW⟩
  let entry' : RateEntry := ⟨entry.count + 1, entry.resetAt⟩
  (decide (entry'.count ≤ CHAT_RATE_LIMIT), alSet limiter sid entry')

/-- isValidPayload(data) from the source. -/
def isValidPayload (data : JsVal) : Bool :=
  match data with
  | .null => false
  | .undef => false
  | _ =>
      match stringify data with
      | some s => decide (s.length ≤ MAX_PAYLOAD_SIZE)
      | none => false

/-- getParticipantList(roomId) from the source: the roster of a room as a
list of (socketId, info) records, empty when the room is absent. -/
def getParticipantList (s : ServerState) (roomId : String) :
    List (SocketId × ParticipantInfo) :=
  (alGet s.roomParticipants roomId).getD []

/-- The socket ids currently on a room's roster. -/
def roomKeys (s : ServerState) (roomId : String) : List SocketId :=
  (getParticipantList s roomId).map Prod.fst

/-- Structured outbound event payloads (the event name plus its object
argument). -/
inductive EmitPayload where
  | errorMessage (message : String) : EmitPayload
  | userJoined (socketId : SocketId) (userId : Option String)
      (username : String) : EmitPayload
  | roomParticipantsEv (roster : List (SocketId × ParticipantInfo)) : EmitPayload
  | userLeft (socketId : SocketId) (username : String) : EmitPayload
  | offerRelay (fromSid : SocketId) (offer : JsVal) : EmitPayload
  | answerRelay (fromSid : SocketId) (answer : JsVal) : EmitPayload
  | iceCandidateRelay (fromSid : SocketId) (candidate : JsVal) : EmitPayload
  | chatMessageEv (msg : ChatMsg) : EmitPayload
  | chatReactionEv (messageId : String) (emoji : String) (userId : String)
      (username : String) : EmitPayload
  | userToggleMute (socketId : SocketId) (muted : Bool) : EmitPayload
  | userToggleVideo (socketId : SocketId) (videoOff : Bool) : EmitPayload
  | userScreenShareStart (socketId : SocketId) (username : String) : EmitPayload
  | userScreenShareStop (socketId : SocketId) : EmitPayload
  | userHandRaise (socketId : SocketId) (username : String)
      (raised : Bool) : EmitPayload
  | broadcastCreated (broadcastId : String) : EmitPayload
  | broadcastJoined (broadcasterSocketId : SocketId) : EmitPayload
  | viewerJoined (viewerSocketId : SocketId) : EmitPayload
  | broadcastNotFound (broadcastId : String) : EmitPayload
  | waitingRoomApproved (roomId : String) : EmitPayload
  | waitingRoomRejected (roomId : String) : EmitPayload
  | waitingRoomUpdated (waitingRoom : List String) : EmitPayload
deriving Repr

/-- An observable broker action: an emission to one connection, or a
fire-and-forget chat persistence intent handed to the Room store. -/
inductive OutEvent where
  | emit (target : SocketId) (payload : EmitPayload) : OutEvent
  | persistChat (roomId : String) (msg : ChatMsg) : OutEvent
deriving Repr

/-- Inbound events: a connection arriving (with its authenticated identity
already resolved), every client event the source registers a handler for,
and disconnect.  chatMessage carries the generated messageId and the
Date.now() value as explicit inputs. -/
inductive InEvent where
  | connect (sid : SocketId) (userId : Option String) (username : String) : InEvent
  | joinRoom (sid : SocketId) (roomId : JsVal) : InEvent
  | leaveRoomEv (sid : SocketId) : InEvent
  | disconnectEv (sid : SocketId) : InEvent
  | createBroadcast (sid : SocketId) (broadcastId : JsVal) : InEvent
  | joinBroadcast (sid : SocketId) (broadcastId : JsVal) : InEvent
  | offerEv (sid : SocketId) (toV : JsVal) (offer : JsVal) : InEvent
  | answerEv (sid : SocketId) (toV : JsVal) (answer : JsVal) : InEvent
  | iceCandidateEv (sid : SocketId) (toV : JsVal) (candidate : JsVal) : InEvent
  | chatMessage (sid : SocketId) (mid : String) (now : Nat) (roomId : JsVal)
      (message : JsVal) : InEvent
  | chatReaction (sid : SocketId) (roomId : JsVal) (messageId : JsVal)
      (emoji : JsVal) : InEvent
  | toggleMute (sid : SocketId) (roomId : JsVal) (muted : JsVal) : InEvent
  | toggleVideo (sid : SocketId) (roomId : JsVal) (videoOff : JsVal) : InEvent
  | screenShareStart (sid : SocketId) (roomId : JsVal) : InEvent
  | screenShareStop (sid : SocketId) (roomId : JsVal) : InEvent
  | handRaise (sid : SocketId) (roomId : JsVal) (raised : JsVal) : InEvent
  | approveUser (sid : SocketId) (roomId : JsVal) (userId : JsVal) : InEvent
  | rejectUser (sid : SocketId) (roomId : JsVal) (userId : JsVal) : InEvent
deriving Repr

/-- socket.to(roomId).emit: fan out to the room roster except the sender. -/
def emitRoomExcept (s : ServerState) (roomId : String) (sid : SocketId)
    (p : EmitPayload) : List OutEvent :=
  ((roomKeys s roomId).filter (fun t => t != sid)).map
    (fun t => OutEvent.emit t p)

/-- io.to(roomId).emit for a room: fan out to the whole roster, the sender
included when it is on it. -/
def emitRoomAll (s : ServerState) (roomId : String) (p : EmitPayload) :
    List OutEvent :=
  (roomKeys s roomId).map (fun t => OutEvent.emit t p)

/-- io.to(connectionId).emit: deliver to the target connection when it is
still connected, silently nowhere otherwise. -/
def emitDirect (s : ServerState) (t : SocketId) (p : EmitPayload) :
    List OutEvent :=
  if (alGet s.sockets t).isSome then [OutEvent.emit t p] else []

/-- The shared invalid-argument test of join-room and create-broadcast:
the value is falsy, not a string, or longer than maxLen. -/
def invalidStrArg (v : JsVal) (maxLen : Nat) : Bool :=
  !(truthy v) || !(v.isString) || decide (v.asString.length > maxLen)

/-- A new connection: the auth middleware has run, the socket is stored
with no current room or broadcast.  Transport ids are fresh, which the
model renders as a no-op on collision. -/
def connectH (s : ServerState) (sid : SocketId) (uid : Option String)
    (uname : String) : ServerState × List OutEvent :=
  if (alGet s.sockets sid).isSome then (s, [])
  else ({ s with sockets := alSet s.sockets sid ⟨uid, uname, none, none⟩ }, [])

/-- leaveRoom(io, socket) from the source: delete the socket from its
room's roster, notify the others with user-left, drop the room when it
became empty, and clear socket.data.roomId. -/
def leaveRoomFn (s : ServerState) (sid : SocketId) :
    ServerState × List OutEvent :=
  match alGet s.sockets sid with
  | none => (s, [])
  | some d =>
    match d.roomId with
    | none => (s, [])
    | some roomId =>
      let r1 :=
        match alGet s.roomParticipants roomId with
        | none => (s, [])
        | some parts =>
          let parts1 := alDel parts sid
          let evs := emitRoomExcept s roomId sid (.userLeft sid d.username)
          let rp :=
            if parts1.isEmpty then alDel s.roomParticipants roomId
            else alSet s.roomParticipants roomId parts1
          ({ s with roomParticipants := rp }, evs)
      ({ r1.1 with sockets := alSet r1.1.sockets sid { d with roomId := none } },
       r1.2)

/-- The core of the join-room handler once validation and the leave of a
previous room are done: record the room on the socket, add it to the
roster with default flags, notify the others, send the roster to the
joiner. -/
def joinCore (s1 : ServerState) (sid : SocketId) (d1 : SocketData)
    (roomId : String) : ServerState × List OutEvent :=
  let s2 := { s1 with
    sockets := alSet s1.sockets sid { d1 with roomId := some roomId } }
  let parts := (alGet s2.roomParticipants roomId).getD []
  let parts1 :=
    alSet parts sid ⟨d1.userId, d1.username, false, false, false, false⟩
  let s3 := { s2 with
    roomParticipants := alSet s2.roomParticipants roomId parts1 }
  let evs2 :=
    emitRoomExcept s3 roomId sid (.userJoined sid d1.userId d1.username)
  (s3, evs2 ++
    [.emit sid (.roomParticipantsEv (getParticipantList s3 roomId))])

/-- The join-room handler. -/
def joinRoomH (s : ServerState) (sid : SocketId) (v : JsVal) :
    ServerState × List OutEvent :=
  match alGet s.sockets sid with
  | none => (s, [])
  | some d =>
    if invalidStrArg v 128 then
      (s, [.emit sid (.errorMessage "Valid roomId is required")])
    else
      let r1 := if d.roomId.isSome then leaveRoomFn s sid else (s, [])
      let d1 := (alGet r1.1.sockets sid).getD d
      let core := joinCore r1.1 sid d1 v.asString
      (core.1, r1.2 ++ core.2)

/-- The create-broadcast handler. -/
def createBroadcastH (s : ServerState) (sid : SocketId) (v : JsVal) :
    ServerState × List OutEvent :=
  match alGet s.sockets sid with
  | none => (s, [])
  | some d =>
    if invalidStrArg v 64 then
      (s, [.emit sid (.errorMessage "Valid broadcastId is required")])
    else
      let b := v.asString
      ({ s with
          broadcastRegistry := alSet s.broadcastRegistry b sid,
          sockets := alSet s.sockets sid { d with broadcastId := some b } },
       [.emit sid (.broadcastCreated b)])

/-- The join-broadcast handler. -/
def joinBroadcastH (s : ServerState) (sid : SocketId) (v : JsVal) :
    ServerState × List OutEvent :=
  match alGet s.sockets sid with
  | none => (s, [])
  | some _ =>
    if !(truthy v) || !(v.isString) then
      (s, [.emit sid (.errorMessage "Valid broadcastId is required")])
    else
      let b := v.asString
      match alGet s.broadcastRegistry b with
      | none => (s, [.emit sid (.broadcastNotFound b)])
      | some bc =>
          (s, emitDirect s bc (.viewerJoined sid) ++
              [.emit sid (.broadcastJoined bc)])

/-- The shared shape of the three signaling relay handlers: validate, then
forward to the addressed connection with the sender's id attached.  A
truthy non-string target names no connection and delivers nowhere. -/
def relayH (s : ServerState) (sid : SocketId) (toV payloadV : JsVal)
    (mk : SocketId → JsVal → EmitPayload) : ServerState × List OutEvent :=
  match alGet s.sockets sid with
  | none => (s, [])
  | some _ =>
    if !(truthy toV) || !(truthy payloadV) || !(isValidPayload payloadV) then
      (s, [])
    else
      match toV with
      | .str t => (s, emitDirect s t (mk sid payloadV))
      | _ => (s, [])

/-- Model of String.prototype.trim: strip whitespace from both ends. -/
def jsTrim (s : String) : String :=
  ((s.toList.dropWhile Char.isWhitespace).reverse.dropWhile
    Char.isWhitespace).reverse.asString

/-- socket.data.userId || null of the chat-message handler. -/
def normUserId : Option String → Option String
  | some u => if u == "" then none else some u
  | none => none

/-- The chat-message handler.  The persistChat output records the
fire-and-forget write handed to the store; the store itself is updated
when the room document exists (a non-string roomId matches no document
and no transport room). -/
def chatMessageH (s : ServerState) (sid : SocketId) (mid : String) (now : Nat)
    (roomIdV msgV : JsVal) : ServerState × List OutEvent :=
  match alGet s.sockets sid with
  | none => (s, [])
  | some d =>
    if !(truthy roomIdV) || !(truthy msgV) || !(msgV.isString) then (s, [])
    else
      let trimmed := jsTrim msgV.asString
      if trimmed.length == 0 || decide (trimmed.length > 1000) then (s, [])
      else
        let res := checkChatRate s.chatLimiter sid now
        let s1 := { s with chatLimiter := res.2 }
        if !res.1 then
          (s1, [.emit sid (.errorMessage "Chat rate limit exceeded. Slow down.")])
        else
          let msg : ChatMsg :=
            ⟨mid, normUserId d.userId, d.username, trimmed, now, []⟩
          match roomIdV with
          | .str roomId =>
            let rooms' :=
              match alGet s1.rooms roomId with
              | some room =>
                  alSet s1.rooms roomId
                    { room with chatMessages := room.chatMessages ++ [msg] }
              | none => s1.rooms
            ({ s1 with rooms := rooms' },
             OutEvent.persistChat roomId msg ::
               emitRoomAll s1 roomId (.chatMessageEv msg))
          | _ => (s1, [])

/-- The chat-reaction handler. -/
def chatReactionH (s : ServerState) (sid : SocketId)
    (roomIdV messageIdV emojiV : JsVal) : ServerState × List OutEvent :=
  match alGet s.sockets sid with
  | none => (s, [])
  | some d =>
    if !(truthy roomIdV) || !(truthy messageIdV) || !(truthy emojiV) ||
        !(emojiV.isString) then (s, [])
    else if decide (emojiV.asString.length > 10) then (s, [])
    else
      match normUserId d.userId with
      | none => (s, [.emit sid (.errorMessage "Must be authenticated to react")])
      | some uid =>
        let emoji := emojiV.asString
        match roomIdV, messageIdV with
        | .str roomId, .str messageId =>
          let rooms' :=
            match alGet s.rooms roomId with
            | some room =>
                if room.chatMessages.any (fun m => m.messageId == messageId)
                then
                  let addR := fun (m : ChatMsg) =>
                    if m.messageId == messageId then
                      let reactions' :=
                        match alGet m.reactions emoji with
                        | some users =>
                            if uid ∈ users then m.reactions
                            else alSet m.reactions emoji (users ++ [uid])
                        | none => alSet m.reactions emoji [uid]
                      { m with reactions := reactions' }
                    else m
                  alSet s.rooms roomId
                    { room with chatMessages := room.chatMessages.map addR }
                else s.rooms
            | none => s.rooms
          ({ s with rooms := rooms' },
           emitRoomAll s roomId (.chatReactionEv messageId emoji uid d.username))
        | _, _ => (s, [])

/-- The shared core of the presence toggles: if the connection is on the
claimed room's roster, update its record and notify the room (excluding
the sender); otherwise do nothing. -/
def presenceToggle (s : ServerState) (sid : SocketId) (roomId : String)
    (upd : ParticipantInfo → ParticipantInfo) (p : EmitPayload) :
    ServerState × List OutEvent :=
  match alGet s.roomParticipants roomId with
  | some parts =>
    match alGet parts sid with
    | some info =>
      let parts' := alSet parts sid (upd info)
      ({ s with roomParticipants := alSet s.roomParticipants roomId parts' },
       emitRoomExcept s roomId sid p)
    | none => (s, [])
  | none => (s, [])

/-- The toggle-mute handler. -/
def toggleMuteH (s : ServerState) (sid : SocketId) (roomIdV mutedV : JsVal) :
    ServerState × List OutEvent :=
  match alGet s.sockets sid with
  | none => (s, [])
  | some _ =>
    if !(truthy roomIdV) || !(mutedV.isBool) then (s, [])
    else
      match roomIdV with
      | .str roomId =>
          presenceToggle s sid roomId
            (fun info => { info with muted := mutedV.asBool })
            (.userToggleMute sid mutedV.asBool)
      | _ => (s, [])

/-- The toggle-video handler. -/
def toggleVideoH (s : ServerState) (sid : SocketId) (roomIdV videoOffV : JsVal) :
    ServerState × List OutEvent :=
  match alGet s.sockets sid with
  | none => (s, [])
  | some _ =>
    if !(truthy roomIdV) || !(videoOffV.isBool) then (s, [])
    else
      match roomIdV with
      | .str roomId =>
          presenceToggle s sid roomId
            (fun info => { info with videoOff := videoOffV.asBool })
            (.userToggleVideo sid videoOffV.asBool)
      | _ => (s, [])

/-- The screen-share-start handler. -/
def screenShareStartH (s : ServerState) (sid : SocketId) (roomIdV : JsVal) :
    ServerState × List OutEvent :=
  match alGet s.sockets sid with
  | none => (s, [])
  | some d =>
    if !(truthy roomIdV) then (s, [])
    else
      match roomIdV with
      | .str roomId =>
          presenceToggle s sid roomId
            (fun info => { info with screenSharing := true })
            (.userScreenShareStart sid d.username)
      | _ => (s, [])

/-- The screen-share-stop handler. -/
def screenShareStopH (s : ServerState) (sid : SocketId) (roomIdV : JsVal) :
    ServerState × List OutEvent :=
  match alGet s.sockets sid with
  | none => (s, [])
  | some _ =>
    if !(truthy roomIdV) then (s, [])
    else
      match roomIdV with
      | .str roomId =>
          presenceToggle s sid roomId
            (fun info => { info with screenSharing := false })
            (.userScreenShareStop sid)
      | _ => (s, [])

/-- The hand-raise handler. -/
def handRaiseH (s : ServerState) (sid : SocketId) (roomIdV raisedV : JsVal) :
    ServerState × List OutEvent :=
  match alGet s.sockets sid with
  | none => (s, [])
  | some d =>
    if !(truthy roomIdV) || !(raisedV.isBool) then (s, [])
    else
      match roomIdV with
      | .str roomId =>
          presenceToggle s sid roomId
            (fun info => { info with handRaised := raisedV.asBool })
            (.userHandRaise sid d.username raisedV.asBool)
      | _ => (s, [])

mutual

/-- The String(x) coercion of JavaScript, for the values the waiting-room
handlers compare. -/
def jsStringOf : JsVal → String
  | .undef => "undefined"
  | .null => "null"
  | .boolV b => if b then "true" else "false"
  | .num n => toString n
  | .str s => s
  | .arr xs => String.intercalate "," (jsStringOfArr xs)
  | .obj _ => "[object Object]"
  | .bigintV n => toString n

/-- Array elements render comma-joined, with null and undefined rendering
empty. -/
def jsStringOfArr : List JsVal → List String
  | [] => []
  | .undef :: xs => "" :: jsStringOfArr xs
  | .null :: xs => "" :: jsStringOfArr xs
  | v :: xs => jsStringOf v :: jsStringOfArr xs

end

/-- String(socket.data.userId): null renders as the string null. -/
def jsStringOfOpt : Option String → String
  | none => "null"
  | some u => u

/-- The io.fetchSockets().find(...) of handleWaitingRoomAction: the first
connected socket whose userId is truthy and coerces to the target id. -/
def findUserSocket (s : ServerState) (u : String) :
    Option (SocketId × SocketData) :=
  s.sockets.find? (fun p =>
    match p.2.userId with
    | some uid => uid != "" && uid == u
    | none => false)

/-- handleWaitingRoomAction(socket, roomId, userId, action) from the
source; approved selects between the approved and rejected events. -/
def handleWaitingRoomAction (s : ServerState) (sid : SocketId) (d : SocketData)
    (roomIdV userIdV : JsVal) (approved : Bool) : ServerState × List OutEvent :=
  let room? :=
    match roomIdV with
    | .str r => alGet s.rooms r
    | _ => none
  match room? with
  | none => (s, [.emit sid (.errorMessage "Only room creator can manage waiting room")])
  | some room =>
    if room.creator != jsStringOfOpt d.userId then
      (s, [.emit sid (.errorMessage "Only room creator can manage waiting room")])
    else
      let r := roomIdV.asString
      let u := jsStringOf userIdV
      let wr' := room.waitingRoom.filter (fun id => id != u)
      let s' := { s with rooms := alSet s.rooms r { room with waitingRoom := wr' } }
      let targetEvs :=
        match findUserSocket s u with
        | some t =>
            [OutEvent.emit t.1
              (if approved then .waitingRoomApproved r else .waitingRoomRejected r)]
        | none => []
      (s', targetEvs ++ [.emit sid (.waitingRoomUpdated wr')])

/-- The approve-user / reject-user handlers. -/
def waitingRoomH (s : ServerState) (sid : SocketId) (roomIdV userIdV : JsVal)
    (approved : Bool) : ServerState × List OutEvent :=
  match alGet s.sockets sid with
  | none => (s, [])
  | some d =>
    if !(truthy roomIdV) || !(truthy userIdV) then (s, [])
    else handleWaitingRoomAction s sid d roomIdV userIdV approved

/-- The disconnect handler: delete the socket's broadcast registry entry
when it owns one, run leaveRoom, evict the rate limiter state, and remove
the connection. -/
def disconnectH (s : ServerState) (sid : SocketId) :
    ServerState × List OutEvent :=
  match alGet s.sockets sid with
  | none => (s, [])
  | some d =>
    let s0 :=
      match d.broadcastId with
      | some b =>
          if b != "" then
            { s with broadcastRegistry := alDel s.broadcastRegistry b }
          else s
      | none => s
    let r1 := leaveRoomFn s0 sid
    ({ r1.1 with
        chatLimiter := alDel r1.1.chatLimiter sid,
        sockets := alDel r1.1.sockets sid },
     r1.2)

/-- One transition of the broker: dispatch an inbound event to its
handler.  Events of connections that are no longer connected are
discarded, as the transport does. -/
def step (s : ServerState) (e : InEvent) : ServerState × List OutEvent :=
  match e with
  | .connect sid uid uname => connectH s sid uid uname
  | .joinRoom sid v => joinRoomH s sid v
  | .leaveRoomEv sid =>
      match alGet s.sockets sid with
      | none => (s, [])
      | some _ => leaveRoomFn s sid
  | .disconnectEv sid => disconnectH s sid
  | .createBroadcast sid v => createBroadcastH s sid v
  | .joinBroadcast sid v => joinBroadcastH s sid v
  | .offerEv sid toV v => relayH s sid toV v EmitPayload.offerRelay
  | .answerEv sid toV v => relayH s sid toV v EmitPayload.answerRelay
  | .iceCandidateEv sid toV v => relayH s sid toV v EmitPayload.iceCandidateRelay
  | .chatMessage sid mid now roomIdV msgV => chatMessageH s sid mid now roomIdV msgV
  | .chatReaction sid roomIdV messageIdV emojiV =>
      chatReactionH s sid roomIdV messageIdV emojiV
  | .toggleMute sid roomIdV mutedV => toggleMuteH s sid roomIdV mutedV
  | .toggleVideo sid roomIdV videoOffV => toggleVideoH s sid roomIdV videoOffV
  | .screenShareStart sid roomIdV => screenShareStartH s sid roomIdV
  | .screenShareStop sid roomIdV => screenShareStopH s sid roomIdV
  | .handRaise sid roomIdV raisedV => handRaiseH s sid roomIdV raisedV
  | .approveUser sid roomIdV userIdV => waitingRoomH s sid roomIdV userIdV true
  | .rejectUser sid roomIdV userIdV => waitingRoomH s sid roomIdV userIdV false

/-- Run a sequence of inbound events, concatenating the outputs. -/
def runSeq (s : ServerState) (es : List InEvent) :
    ServerState × List OutEvent :=
  match es with
  | [] => (s, [])
  | e :: rest =>
      let r1 := step s e
      let r2 := runSeq r1.1 rest
      (r2.1, r1.2 ++ r2.2)

/-- The per-event output lists of a run. -/
def runOuts (s : ServerState) (es : List InEvent) : List (List OutEvent) :=
  match es with
  | [] => []
  | e :: rest => (step s e).2 :: runOuts (step s e).1 rest

/-- States the broker can be in after any sequence of events from process
start. -/
inductive Reachable : ServerState → Prop where
  | init : Reachable initialState
  | next (s : ServerState) (e : InEvent) : Reachable s → Reachable (step s e).1

theorem alSet_cons {β : Type} (p : String × β) (rest : List (String × β))
    (k : String) (v : β) :
    alSet (p :: rest) k v =
      if p.1 == k then (k, v) :: rest else p :: alSet rest k v := rfl

theorem alDel_cons {β : Type} (p : String × β) (rest : List (String × β))
    (k : String) :
    alDel (p :: rest) k =
      if p.1 == k then alDel rest k else p :: alDel rest k := by
  by_cases hp : p.1 = k <;> simp [alDel, hp]

theorem alGet_alSet_self {β : Type} (l : List (String × β)) (k : String)
    (v : β) : alGet (alSet l k v) k = some v := by
  induction l with
  | nil => simp [alGet, alSet]
  | cons p rest ih =>
      rw [alSet_cons]
      by_cases hp : p.1 = k
      · simp [hp, alGet]
      · simp [hp, alGet, ih]

theorem alGet_alSet_ne {β : Type} (l : List (String × β)) (k k' : String)
    (v : β) (h : k' ≠ k) : alGet (alSet l k v) k' = alGet l k' := by
  induction l with
  | nil =>
      simp [alGet, alSet]
      exact fun he => absurd he.symm h
  | cons p rest ih =>
      rw [alSet_cons]
      by_cases hp : p.1 = k
      · have hne : ¬ p.1 = k' := by rw [hp]; exact fun he => h he.symm
        have hne' : ¬ k = k' := fun he => h he.symm
        simp [alGet, hp, hne, hne']
      · by_cases hk : p.1 = k'
        · simp [hp, alGet, hk, h]
        · simp [hp, alGet, hk, ih]

theorem alGet_alDel_self {β : Type} (l : List (String × β)) (k : String) :
    alGet (alDel l k) k = none := by
  induction l with
  | nil => simp [alGet, alDel]
  | cons p rest ih =>
      rw [alDel_cons]
      by_cases hp : p.1 = k
      · simp [hp, ih]
      · simp [hp, alGet, ih]

theorem alGet_alDel_ne {β : Type} (l : List (String × β)) (k k' : String)
    (h : k' ≠ k) : alGet (alDel l k) k' = alGet l k' := by
  induction l with
  | nil => simp [alGet, alDel]
  | cons p rest ih =>
      rw [alDel_cons]
      by_cases hp : p.1 = k
      · have hne : ¬ p.1 = k' := by rw [hp]; exact fun he => h he.symm
        simp [hp, alGet, hne, ih, Ne.symm h]
      · by_cases hk : p.1 = k'
        · simp [hp, alGet, hk, h]
        · simp [hp, alGet, hk, ih]

theorem mem_alSet {β : Type} (l : List (String × β)) (k : String) (v : β)
    (p : String × β) (h : p ∈ alSet l k v) : p = (k, v) ∨ p ∈ l := by
  induction l with
  | nil => simpa [alSet] using h
  | cons q rest ih =>
      rw [alSet_cons] at h
      by_cases hq : q.1 = k
      · simp [hq] at h
        rcases h with h | h
        · exact Or.inl h
        · exact Or.inr (List.mem_cons_of_mem _ h)
      · simp [hq] at h
        rcases h with h | h
        · exact Or.inr (by simp [h])
        · rcases ih h with h' | h'
          · exact Or.inl h'
          · exact Or.inr (List.mem_cons_of_mem _ h')

theorem mem_alDel {β : Type} (l : List (String × β)) (k : String)
    (p : String × β) (h : p ∈ alDel l k) : p ∈ l ∧ p.1 ≠ k := by
  unfold alDel at h
  have h' := List.mem_filter.mp h
  refine ⟨h'.1, ?_⟩
  simpa using h'.2

theorem alGet_mem {β : Type} (l : List (String × β)) (k : String) (v : β)
    (h : alGet l k = some v) : (k, v) ∈ l := by
  induction l with
  | nil => simp [alGet] at h
  | cons p rest ih =>
      by_cases hp : p.1 = k
      · simp [alGet, hp] at h
        have hpv : p = (k, v) := by
          cases p with
          | mk a b =>
              simp at hp h
              rw [hp, h]
        rw [← hpv]
        exact List.mem_cons_self p rest
      · simp [alGet, hp] at h
        exact List.mem_cons_of_mem _ (ih h)

theorem alGet_isSome_of_mem {β : Type} (l : List (String × β)) (p : String × β)
    (h : p ∈ l) : (alGet l p.1).isSome := by
  induction l with
  | nil => simp at h
  | cons q rest ih =>
      rcases List.mem_cons.mp h with h' | h'
      · simp [h', alGet]
      · by_cases hq : q.1 = p.1
        · simp [alGet, hq]
        · simp [alGet, hq, ih h']

theorem keys_alSet_nodup {β : Type} (l : List (String × β)) (k : String)
    (v : β) (h : (l.map Prod.fst).Nodup) :
    ((alSet l k v).map Prod.fst).Nodup := by
  induction l with
  | nil => simp [alSet]
  | cons p rest ih =>
      rw [alSet_cons]
      rw [List.map_cons, List.nodup_cons] at h
      by_cases hp : p.1 = k
      · rw [if_pos (by simp [hp])]
        rw [List.map_cons, List.nodup_cons]
        exact ⟨by rw [← hp]; exact h.1, h.2⟩
      · rw [if_neg (by simp [hp])]
        rw [List.map_cons, List.nodup_cons]
        refine ⟨?_, ih h.2⟩
        intro hmem
        rcases List.mem_map.mp hmem with ⟨q, hq, hfst⟩
        rcases mem_alSet rest k v q hq with h' | h'
        · exact hp (by rw [← hfst, h'])
        · exact h.1 (by rw [← hfst]; exact List.mem_map_of_mem Prod.fst h')

theorem keys_alDel_nodup {β : Type} (l : List (String × β)) (k : String)
    (h : (l.map Prod.fst).Nodup) : ((alDel l k).map Prod.fst).Nodup := by
  unfold alDel
  exact h.sublist (List.Sublist.map Prod.fst (List.filter_sublist l))

theorem alGet_eq_some_of_mem_nodup {β : Type} (l : List (String × β))
    (k : String) (v : β) (hnd : (l.map Prod.fst).Nodup) (h : (k, v) ∈ l) :
    alGet l k = some v := by
  induction l with
  | nil => simp at h
  | cons p rest ih =>
      rw [List.map_cons, List.nodup_cons] at hnd
      rcases List.mem_cons.mp h with h' | h'
      · rw [← h']
        simp [alGet]
      · by_cases hp : p.1 = k
        · exfalso
          apply hnd.1
          rw [hp]
          exact List.mem_map_of_mem Prod.fst h'
        · simp [alGet, hp]
          exact ih hnd.2 h'

theorem mem_alDel_of_mem {β : Type} (l : List (String × β)) (k : String)
    (p : String × β) (h : p ∈ l) (hne : p.1 ≠ k) : p ∈ alDel l k := by
  unfold alDel
  exact List.mem_filter.mpr ⟨h, by simpa using hne⟩

/-- Structural well-formedness of a broker state: room rosters hold each
connection at most once, the broadcast registry holds each id at most
once, and the roster/socket.data.roomId correspondence of the claims
holds in both directions. -/
structure WF (s : ServerState) : Prop where
  partsNodup : ∀ r ps, alGet s.roomParticipants r = some ps →
    (ps.map Prod.fst).Nodup
  registryNodup : (s.broadcastRegistry.map Prod.fst).Nodup
  forward : ∀ r ps p, alGet s.roomParticipants r = some ps → p ∈ ps →
    ∃ d, alGet s.sockets p.1 = some d ∧ d.roomId = some r
  backward : ∀ sid d r, alGet s.sockets sid = some d → d.roomId = some r →
    ∃ ps, alGet s.roomParticipants r = some ps ∧ (alGet ps sid).isSome

theorem wf_initial : WF initialState := by
  constructor <;> simp [initialState, alGet]

theorem wf_of_eq (s s' : ServerState) (hwf : WF s)
    (h1 : s'.sockets = s.sockets)
    (h2 : s'.roomParticipants = s.roomParticipants)
    (h3 : s'.broadcastRegistry = s.broadcastRegistry) : WF s' := by
  constructor
  · rw [h2]; exact hwf.partsNodup
  · rw [h3]; exact hwf.registryNodup
  · rw [h1, h2]; exact hwf.forward
  · rw [h1, h2]; exact hwf.backward

/-- If a connection is recorded with no current room, it is on no roster. -/
theorem not_in_parts_of_no_room (s : ServerState) (hwf : WF s)
    (sid : SocketId) (hnone : ∀ d, alGet s.sockets sid = some d → d.roomId = none) :
    ∀ r ps, alGet s.roomParticipants r = some ps → alGet ps sid = none := by
  intro r ps hps
  cases hv : alGet ps sid with
  | none => rfl
  | some v =>
      exfalso
      have hmem : (sid, v) ∈ ps := alGet_mem ps sid v hv
      rcases hwf.forward r ps (sid, v) hps hmem with ⟨d, hd, hr⟩
      cases h : alGet s.sockets sid with
      | none => rw [h] at hd; exact Option.noConfusion hd
      | some d' =>
          rw [h] at hd
          have : d' = d := Option.some.inj hd
          rw [← this] at hr
          rw [hnone d' h] at hr
          exact Option.noConfusion hr


theorem leaveRoomFn_frame (s : ServerState) (sid : SocketId) :
    (leaveRoomFn s sid).1.broadcastRegistry = s.broadcastRegistry ∧
    (leaveRoomFn s sid).1.chatLimiter = s.chatLimiter ∧
    (leaveRoomFn s sid).1.rooms = s.rooms := by
  unfold leaveRoomFn
  split
  · exact ⟨rfl, rfl, rfl⟩
  · split
    · exact ⟨rfl, rfl, rfl⟩
    · split
      all_goals exact ⟨rfl, rfl, rfl⟩

theorem leaveRoomFn_sockets_ne (s : ServerState) (sid t : SocketId)
    (hne : t ≠ sid) :
    alGet (leaveRoomFn s sid).1.sockets t = alGet s.sockets t := by
  unfold leaveRoomFn
  split
  · rfl
  · split
    · rfl
    · split
      all_goals simp [alGet_alSet_ne _ _ _ _ hne]

theorem leaveRoomFn_sockets_self (s : ServerState) (sid : SocketId)
    (d : SocketData) (hd : alGet s.sockets sid = some d) :
    alGet (leaveRoomFn s sid).1.sockets sid = some { d with roomId := none } := by
  unfold leaveRoomFn
  split
  · rename_i h
    rw [hd] at h
    exact Option.noConfusion h
  · rename_i d' h
    rw [hd] at h
    have hdd : d' = d := (Option.some.inj h).symm
    subst hdd
    split
    · rename_i h2
      rw [hd]
      congr 1
      cases d' with
      | mk a b c e =>
          simp at h2 ⊢
          exact h2
    · split
      all_goals simp [alGet_alSet_self]

theorem leaveRoomFn_eq_not_connected (s : ServerState) (sid : SocketId)
    (h : alGet s.sockets sid = none) : leaveRoomFn s sid = (s, []) := by
  unfold leaveRoomFn
  rw [h]

theorem leaveRoomFn_eq_no_room (s : ServerState) (sid : SocketId)
    (d : SocketData) (h : alGet s.sockets sid = some d) (hr : d.roomId = none) :
    leaveRoomFn s sid = (s, []) := by
  simp [leaveRoomFn, h, hr]

theorem leaveRoomFn_state_no_parts (s : ServerState) (sid : SocketId)
    (d : SocketData) (roomId : String) (h : alGet s.sockets sid = some d)
    (hr : d.roomId = some roomId) (hp : alGet s.roomParticipants roomId = none) :
    (leaveRoomFn s sid).1 =
      { s with sockets := alSet s.sockets sid { d with roomId := none } } := by
  simp [leaveRoomFn, h, hr, hp]

theorem leaveRoomFn_state_empty (s : ServerState) (sid : SocketId)
    (d : SocketData) (roomId : String)
    (parts : List (SocketId × ParticipantInfo))
    (h : alGet s.sockets sid = some d) (hr : d.roomId = some roomId)
    (hp : alGet s.roomParticipants roomId = some parts)
    (hempty : (alDel parts sid).isEmpty) :
    (leaveRoomFn s sid).1 =
      { s with
          roomParticipants := alDel s.roomParticipants roomId,
          sockets := alSet s.sockets sid { d with roomId := none } } := by
  simp [leaveRoomFn, h, hr, hp, hempty]

theorem leaveRoomFn_state_shrink (s : ServerState) (sid : SocketId)
    (d : SocketData) (roomId : String)
    (parts : List (SocketId × ParticipantInfo))
    (h : alGet s.sockets sid = some d) (hr : d.roomId = some roomId)
    (hp : alGet s.roomParticipants roomId = some parts)
    (hempty : ¬ (alDel parts sid).isEmpty) :
    (leaveRoomFn s sid).1 =
      { s with
          roomParticipants := alSet s.roomParticipants roomId (alDel parts sid),
          sockets := alSet s.sockets sid { d with roomId := none } } := by
  simp [leaveRoomFn, h, hr, hp, hempty]

theorem leaveRoomFn_wf (s : ServerState) (sid : SocketId) (hwf : WF s) :
    WF (leaveRoomFn s sid).1 := by
  cases h : alGet s.sockets sid with
  | none => rw [leaveRoomFn_eq_not_connected s sid h]; exact hwf
  | some d =>
    cases hr : d.roomId with
    | none => rw [leaveRoomFn_eq_no_room s sid d h hr]; exact hwf
    | some roomId =>
      cases hp : alGet s.roomParticipants roomId with
      | none =>
        rw [leaveRoomFn_state_no_parts s sid d roomId h hr hp]
        constructor
        · exact hwf.partsNodup
        · exact hwf.registryNodup
        · intro r ps p hps hmem
          by_cases hps1 : p.1 = sid
          · exfalso
            rcases hwf.forward r ps p hps hmem with ⟨dd, hdd, hrr⟩
            rw [hps1, h] at hdd
            have hde : d = dd := Option.some.inj hdd
            rw [← hde, hr] at hrr
            have hre : roomId = r := Option.some.inj hrr
            rw [← hre, hp] at hps
            exact Option.noConfusion hps
          · rw [alGet_alSet_ne _ _ _ _ hps1]
            exact hwf.forward r ps p hps hmem
        · intro sid' d' r' hd' hr'
          by_cases hs : sid' = sid
          · subst hs
            rw [alGet_alSet_self] at hd'
            have hde : { d with roomId := none } = d' := Option.some.inj hd'
            rw [← hde] at hr'
            exact Option.noConfusion hr'
          · rw [alGet_alSet_ne _ _ _ _ hs] at hd'
            exact hwf.backward sid' d' r' hd' hr'
      | some parts =>
        by_cases hempty : (alDel parts sid).isEmpty
        · rw [leaveRoomFn_state_empty s sid d roomId parts h hr hp hempty]
          constructor
          · intro r ps hps
            by_cases hrr : r = roomId
            · rw [hrr, alGet_alDel_self] at hps
              exact Option.noConfusion hps
            · rw [alGet_alDel_ne _ _ _ hrr] at hps
              exact hwf.partsNodup r ps hps
          · exact hwf.registryNodup
          · intro r ps p hps hmem
            by_cases hrr : r = roomId
            · rw [hrr, alGet_alDel_self] at hps
              exact Option.noConfusion hps
            · rw [alGet_alDel_ne _ _ _ hrr] at hps
              by_cases hps1 : p.1 = sid
              · exfalso
                rcases hwf.forward r ps p hps hmem with ⟨dd, hdd, hrr2⟩
                rw [hps1, h] at hdd
                have hde : d = dd := Option.some.inj hdd
                rw [← hde, hr] at hrr2
                exact hrr (Option.some.inj hrr2).symm
              · rw [alGet_alSet_ne _ _ _ _ hps1]
                exact hwf.forward r ps p hps hmem
          · intro sid' d' r' hd' hr'
            by_cases hs : sid' = sid
            · subst hs
              rw [alGet_alSet_self] at hd'
              have hde : { d with roomId := none } = d' := Option.some.inj hd'
              rw [← hde] at hr'
              exact Option.noConfusion hr'
            · rw [alGet_alSet_ne _ _ _ _ hs] at hd'
              rcases hwf.backward sid' d' r' hd' hr' with ⟨ps0, hps0, hsome⟩
              by_cases hrr : r' = roomId
              · exfalso
                rw [hrr, hp] at hps0
                have hpe : parts = ps0 := Option.some.inj hps0
                rcases Option.isSome_iff_exists.mp hsome with ⟨v, hv⟩
                have hmem0 : (sid', v) ∈ parts := by
                  rw [hpe]; exact alGet_mem ps0 sid' v hv
                have hmem1 : (sid', v) ∈ alDel parts sid :=
                  mem_alDel_of_mem parts sid (sid', v) hmem0 hs
                rw [List.isEmpty_iff] at hempty
                rw [hempty] at hmem1
                simp at hmem1
              · refine ⟨ps0, ?_, hsome⟩
                rw [alGet_alDel_ne _ _ _ hrr]
                exact hps0
        · rw [leaveRoomFn_state_shrink s sid d roomId parts h hr hp hempty]
          constructor
          · intro r ps hps
            by_cases hrr : r = roomId
            · rw [hrr, alGet_alSet_self] at hps
              have hpe : alDel parts sid = ps := Option.some.inj hps
              rw [← hpe]
              exact keys_alDel_nodup parts sid (hwf.partsNodup roomId parts hp)
            · rw [alGet_alSet_ne _ _ _ _ hrr] at hps
              exact hwf.partsNodup r ps hps
          · exact hwf.registryNodup
          · intro r ps p hps hmem
            by_cases hrr : r = roomId
            · subst hrr
              rw [alGet_alSet_self] at hps
              have hpe : alDel parts sid = ps := Option.some.inj hps
              rw [← hpe] at hmem
              rcases mem_alDel parts sid p hmem with ⟨hmem0, hps1⟩
              rw [alGet_alSet_ne _ _ _ _ hps1]
              exact hwf.forward r parts p hp hmem0
            · rw [alGet_alSet_ne _ _ _ _ hrr] at hps
              by_cases hps1 : p.1 = sid
              · exfalso
                rcases hwf.forward r ps p hps hmem with ⟨dd, hdd, hrr2⟩
                rw [hps1, h] at hdd
                have hde : d = dd := Option.some.inj hdd
                rw [← hde, hr] at hrr2
                exact hrr (Option.some.inj hrr2).symm
              · rw [alGet_alSet_ne _ _ _ _ hps1]
                exact hwf.forward r ps p hps hmem
          · intro sid' d' r' hd' hr'
            by_cases hs : sid' = sid
            · subst hs
              rw [alGet_alSet_self] at hd'
              have hde : { d with roomId := none } = d' := Option.some.inj hd'
              rw [← hde] at hr'
              exact Option.noConfusion hr'
            · rw [alGet_alSet_ne _ _ _ _ hs] at hd'
              rcases hwf.backward sid' d' r' hd' hr' with ⟨ps0, hps0, hsome⟩
              by_cases hrr : r' = roomId
              · subst hrr
                rw [hp] at hps0
                have hpe : parts = ps0 := Option.some.inj hps0
                refine ⟨alDel parts sid, ?_, ?_⟩
                · rw [alGet_alSet_self]
                · rw [alGet_alDel_ne _ _ _ hs, hpe]
                  exact hsome
              · refine ⟨ps0, ?_, hsome⟩
                rw [alGet_alSet_ne _ _ _ _ hrr]
                exact hps0

theorem leaveRoomFn_not_in_parts (s : ServerState) (sid : SocketId)
    (hwf : WF s) :
    ∀ r ps, alGet (leaveRoomFn s sid).1.roomParticipants r = some ps →
      alGet ps sid = none := by
  apply not_in_parts_of_no_room _ (leaveRoomFn_wf s sid hwf)
  intro d hd
  cases h : alGet s.sockets sid with
  | none =>
      rw [leaveRoomFn_eq_not_connected s sid h] at hd
      rw [h] at hd
      exact Option.noConfusion hd
  | some d0 =>
      have hself := leaveRoomFn_sockets_self s sid d0 h
      rw [hself] at hd
      have hde : { d0 with roomId := none } = d := Option.some.inj hd
      rw [← hde]

theorem joinCore_wf (s1 : ServerState) (sid : SocketId) (d1 : SocketData)
    (roomId : String) (hwf : WF s1) (hd1 : alGet s1.sockets sid = some d1)
    (hnotin : ∀ r ps, alGet s1.roomParticipants r = some ps →
      alGet ps sid = none) :
    WF (joinCore s1 sid d1 roomId).1 := by
  have hstate : (joinCore s1 sid d1 roomId).1 =
      { s1 with
          sockets := alSet s1.sockets sid { d1 with roomId := some roomId },
          roomParticipants := alSet s1.roomParticipants roomId
            (alSet ((alGet s1.roomParticipants roomId).getD []) sid
              ⟨d1.userId, d1.username, false, false, false, false⟩) } := by
    simp [joinCore]
  rw [hstate]
  constructor
  · intro r ps hps
    by_cases hrr : r = roomId
    · rw [hrr, alGet_alSet_self] at hps
      rw [← Option.some.inj hps]
      apply keys_alSet_nodup
      cases hp : alGet s1.roomParticipants roomId with
      | none => simp
      | some ps0 => simpa [hp] using hwf.partsNodup roomId ps0 hp
    · rw [alGet_alSet_ne _ _ _ _ hrr] at hps
      exact hwf.partsNodup r ps hps
  · exact hwf.registryNodup
  · intro r ps p hps hmem
    by_cases hrr : r = roomId
    · subst hrr
      rw [alGet_alSet_self] at hps
      rw [← Option.some.inj hps] at hmem
      rcases mem_alSet _ _ _ _ hmem with hnew | hold
      · rw [hnew]
        exact ⟨{ d1 with roomId := some r }, alGet_alSet_self _ _ _, rfl⟩
      · cases hp : alGet s1.roomParticipants r with
        | none =>
            rw [hp] at hold
            simp at hold
        | some ps0 =>
            rw [hp] at hold
            simp at hold
            by_cases hps1 : p.1 = sid
            · exfalso
              have hsome := alGet_isSome_of_mem ps0 p hold
              rw [hps1, hnotin r ps0 hp] at hsome
              simp at hsome
            · rw [alGet_alSet_ne _ _ _ _ hps1]
              exact hwf.forward r ps0 p hp hold
    · rw [alGet_alSet_ne _ _ _ _ hrr] at hps
      by_cases hps1 : p.1 = sid
      · exfalso
        have hsome := alGet_isSome_of_mem ps p hmem
        rw [hps1, hnotin r ps hps] at hsome
        simp at hsome
      · rw [alGet_alSet_ne _ _ _ _ hps1]
        exact hwf.forward r ps p hps hmem
  · intro sid' d' r' hd' hr'
    by_cases hs : sid' = sid
    · subst hs
      rw [alGet_alSet_self] at hd'
      rw [← Option.some.inj hd'] at hr'
      simp at hr'
      subst hr'
      refine ⟨_, alGet_alSet_self _ _ _, ?_⟩
      rw [alGet_alSet_self]
      rfl
    · rw [alGet_alSet_ne _ _ _ _ hs] at hd'
      rcases hwf.backward sid' d' r' hd' hr' with ⟨ps0, hps0, hsome⟩
      by_cases hrr : r' = roomId
      · subst hrr
        refine ⟨_, alGet_alSet_self _ _ _, ?_⟩
        rw [alGet_alSet_ne _ _ _ _ hs, hps0]
        simpa [hps0] using hsome
      · refine ⟨ps0, ?_, hsome⟩
        rw [alGet_alSet_ne _ _ _ _ hrr]
        exact hps0

theorem joinRoomH_wf (s : ServerState) (sid : SocketId) (v : JsVal)
    (hwf : WF s) : WF (joinRoomH s sid v).1 := by
  cases hd : alGet s.sockets sid with
  | none => simpa [joinRoomH, hd] using hwf
  | some d =>
    by_cases hv : invalidStrArg v 128
    · simpa [joinRoomH, hd, hv] using hwf
    · have hstate : (joinRoomH s sid v).1 =
          (joinCore (if d.roomId.isSome then leaveRoomFn s sid else (s, [])).1
            sid
            ((alGet (if d.roomId.isSome then leaveRoomFn s sid
              else (s, [])).1.sockets sid).getD d)
            v.asString).1 := by
        simp [joinRoomH, hd, hv]
      rw [hstate]
      cases hr : d.roomId with
      | none =>
          simp only [hr, Option.isSome_none, Bool.false_eq_true, if_false]
          apply joinCore_wf _ _ _ _ hwf (by simp [hd])
          apply not_in_parts_of_no_room s hwf
          intro d' hd'
          rw [hd] at hd'
          rw [← Option.some.inj hd']
          exact hr
      | some r0 =>
          simp only [hr, Option.isSome_some, if_true]
          have hself := leaveRoomFn_sockets_self s sid d hd
          apply joinCore_wf _ _ _ _ (leaveRoomFn_wf s sid hwf)
          · rw [hself]
            simp [hself]
          · exact leaveRoomFn_not_in_parts s sid hwf

theorem connectH_wf (s : ServerState) (sid : SocketId) (uid : Option String)
    (uname : String) (hwf : WF s) : WF (connectH s sid uid uname).1 := by
  unfold connectH
  by_cases h : (alGet s.sockets sid).isSome
  · simpa [h] using hwf
  · simp only [h, Bool.false_eq_true, if_false, if_neg]
    constructor
    · exact hwf.partsNodup
    · exact hwf.registryNodup
    · intro r ps p hps hmem
      by_cases hps1 : p.1 = sid
      · exfalso
        rcases hwf.forward r ps p hps hmem with ⟨dd, hdd, _⟩
        rw [hps1] at hdd
        rw [hdd] at h
        simp at h
      · rw [alGet_alSet_ne _ _ _ _ hps1]
        exact hwf.forward r ps p hps hmem
    · intro sid' d' r' hd' hr'
      by_cases hs : sid' = sid
      · subst hs
        rw [alGet_alSet_self] at hd'
        rw [← Option.some.inj hd'] at hr'
        exact Option.noConfusion hr'
      · rw [alGet_alSet_ne _ _ _ _ hs] at hd'
        exact hwf.backward sid' d' r' hd' hr'

theorem createBroadcastH_wf (s : ServerState) (sid : SocketId) (v : JsVal)
    (hwf : WF s) : WF (createBroadcastH s sid v).1 := by
  cases hd : alGet s.sockets sid with
  | none => simpa [createBroadcastH, hd] using hwf
  | some d =>
    by_cases hv : invalidStrArg v 64
    · simpa [createBroadcastH, hd, hv] using hwf
    · have hstate : (createBroadcastH s sid v).1 =
          { s with
              broadcastRegistry := alSet s.broadcastRegistry v.asString sid,
              sockets := alSet s.sockets sid
                { d with broadcastId := some v.asString } } := by
        simp [createBroadcastH, hd, hv]
      rw [hstate]
      constructor
      · exact hwf.partsNodup
      · exact keys_alSet_nodup _ _ _ hwf.registryNodup
      · intro r ps p hps hmem
        by_cases hps1 : p.1 = sid
        · rcases hwf.forward r ps p hps hmem with ⟨dd, hdd, hrr⟩
          rw [hps1] at hdd ⊢
          rw [hd] at hdd
          refine ⟨{ d with broadcastId := some v.asString },
            alGet_alSet_self _ _ _, ?_⟩
          rw [← Option.some.inj hdd] at hrr
          exact hrr
        · rw [alGet_alSet_ne _ _ _ _ hps1]
          exact hwf.forward r ps p hps hmem
      · intro sid' d' r' hd' hr'
        by_cases hs : sid' = sid
        · subst hs
          rw [alGet_alSet_self] at hd'
          rw [← Option.some.inj hd'] at hr'
          simp at hr'
          exact hwf.backward _ d r' hd hr'
        · rw [alGet_alSet_ne _ _ _ _ hs] at hd'
          exact hwf.backward sid' d' r' hd' hr'

/-- Updating one participant's flags record preserves well-formedness,
whatever the new record is. -/
theorem wf_update_flag (s : ServerState) (sid : SocketId) (roomId : String)
    (parts : List (SocketId × ParticipantInfo)) (info info' : ParticipantInfo)
    (hwf : WF s) (hp : alGet s.roomParticipants roomId = some parts)
    (hi : alGet parts sid = some info) :
    WF { s with roomParticipants := alSet s.roomParticipants roomId (alSet parts sid info') } := by
  constructor
  · intro r ps hps
    by_cases hrr : r = roomId
    · rw [hrr, alGet_alSet_self] at hps
      rw [← Option.some.inj hps]
      exact keys_alSet_nodup _ _ _ (hwf.partsNodup roomId parts hp)
    · rw [alGet_alSet_ne _ _ _ _ hrr] at hps
      exact hwf.partsNodup r ps hps
  · exact hwf.registryNodup
  · intro r ps p hps hmem
    by_cases hrr : r = roomId
    · subst hrr
      rw [alGet_alSet_self] at hps
      rw [← Option.some.inj hps] at hmem
      rcases mem_alSet _ _ _ _ hmem with hnew | hold
      · have hmem0 : (sid, info) ∈ parts := alGet_mem parts sid info hi
        rcases hwf.forward r parts (sid, info) hp hmem0 with ⟨dd, hdd, hrr2⟩
        rw [hnew]
        exact ⟨dd, hdd, hrr2⟩
      · exact hwf.forward r parts p hp hold
    · rw [alGet_alSet_ne _ _ _ _ hrr] at hps
      exact hwf.forward r ps p hps hmem
  · intro sid' d' r' hd' hr'
    rcases hwf.backward sid' d' r' hd' hr' with ⟨ps0, hps0, hsome⟩
    by_cases hrr : r' = roomId
    · subst hrr
      rw [hp] at hps0
      refine ⟨_, alGet_alSet_self _ _ _, ?_⟩
      by_cases hs : sid' = sid
      · rw [hs, alGet_alSet_self]
        rfl
      · rw [alGet_alSet_ne _ _ _ _ hs, Option.some.inj hps0]
        exact hsome
    · refine ⟨ps0, ?_, hsome⟩
      rw [alGet_alSet_ne _ _ _ _ hrr]
      exact hps0

theorem presenceToggle_wf (s : ServerState) (sid : SocketId) (roomId : String)
    (upd : ParticipantInfo → ParticipantInfo) (p : EmitPayload) (hwf : WF s) :
    WF (presenceToggle s sid roomId upd p).1 := by
  unfold presenceToggle
  split
  · rename_i parts hp
    split
    · rename_i info hi
      exact wf_update_flag s sid roomId parts info (upd info) hwf hp hi
    · exact hwf
  · exact hwf

theorem toggleMuteH_wf (s : ServerState) (sid : SocketId)
    (roomIdV mutedV : JsVal) (hwf : WF s) :
    WF (toggleMuteH s sid roomIdV mutedV).1 := by
  unfold toggleMuteH
  split
  · exact hwf
  · split
    · exact hwf
    · split
      · exact presenceToggle_wf _ _ _ _ _ hwf
      · exact hwf

theorem toggleVideoH_wf (s : ServerState) (sid : SocketId)
    (roomIdV videoOffV : JsVal) (hwf : WF s) :
    WF (toggleVideoH s sid roomIdV videoOffV).1 := by
  unfold toggleVideoH
  split
  · exact hwf
  · split
    · exact hwf
    · split
      · exact presenceToggle_wf _ _ _ _ _ hwf
      · exact hwf

theorem screenShareStartH_wf (s : ServerState) (sid : SocketId)
    (roomIdV : JsVal) (hwf : WF s) :
    WF (screenShareStartH s sid roomIdV).1 := by
  unfold screenShareStartH
  split
  · exact hwf
  · split
    · exact hwf
    · split
      · exact presenceToggle_wf _ _ _ _ _ hwf
      · exact hwf

theorem screenShareStopH_wf (s : ServerState) (sid : SocketId)
    (roomIdV : JsVal) (hwf : WF s) :
    WF (screenShareStopH s sid roomIdV).1 := by
  unfold screenShareStopH
  split
  · exact hwf
  · split
    · exact hwf
    · split
      · exact presenceToggle_wf _ _ _ _ _ hwf
      · exact hwf

theorem handRaiseH_wf (s : ServerState) (sid : SocketId)
    (roomIdV raisedV : JsVal) (hwf : WF s) :
    WF (handRaiseH s sid roomIdV raisedV).1 := by
  unfold handRaiseH
  split
  · exact hwf
  · split
    · exact hwf
    · split
      · exact presenceToggle_wf _ _ _ _ _ hwf
      · exact hwf

theorem joinBroadcastH_state (s : ServerState) (sid : SocketId) (v : JsVal) :
    (joinBroadcastH s sid v).1 = s := by
  simp only [joinBroadcastH]
  repeat' split
  all_goals rfl

theorem relayH_state (s : ServerState) (sid : SocketId) (toV payloadV : JsVal)
    (mk : SocketId → JsVal → EmitPayload) :
    (relayH s sid toV payloadV mk).1 = s := by
  simp only [relayH]
  repeat' split
  all_goals rfl

theorem chatMessageH_frame (s : ServerState) (sid : SocketId) (mid : String)
    (now : Nat) (roomIdV msgV : JsVal) :
    (chatMessageH s sid mid now roomIdV msgV).1.sockets = s.sockets ∧
    (chatMessageH s sid mid now roomIdV msgV).1.roomParticipants =
      s.roomParticipants ∧
    (chatMessageH s sid mid now roomIdV msgV).1.broadcastRegistry =
      s.broadcastRegistry := by
  simp only [chatMessageH]
  repeat' split
  all_goals exact ⟨rfl, rfl, rfl⟩

theorem chatReactionH_frame (s : ServerState) (sid : SocketId)
    (roomIdV messageIdV emojiV : JsVal) :
    (chatReactionH s sid roomIdV messageIdV emojiV).1.sockets = s.sockets ∧
    (chatReactionH s sid roomIdV messageIdV emojiV).1.roomParticipants =
      s.roomParticipants ∧
    (chatReactionH s sid roomIdV messageIdV emojiV).1.broadcastRegistry =
      s.broadcastRegistry := by
  simp only [chatReactionH]
  repeat' split
  all_goals exact ⟨rfl, rfl, rfl⟩

theorem waitingRoomH_frame (s : ServerState) (sid : SocketId)
    (roomIdV userIdV : JsVal) (approved : Bool) :
    (waitingRoomH s sid roomIdV userIdV approved).1.sockets = s.sockets ∧
    (waitingRoomH s sid roomIdV userIdV approved).1.roomParticipants =
      s.roomParticipants ∧
    (waitingRoomH s sid roomIdV userIdV approved).1.broadcastRegistry =
      s.broadcastRegistry := by
  simp only [waitingRoomH, handleWaitingRoomAction]
  repeat' split
  all_goals exact ⟨rfl, rfl, rfl⟩

theorem wf_registry_del (s : ServerState) (b : String) (hwf : WF s) :
    WF { s with broadcastRegistry := alDel s.broadcastRegistry b } := by
  constructor
  · exact hwf.partsNodup
  · exact keys_alDel_nodup _ _ hwf.registryNodup
  · exact hwf.forward
  · exact hwf.backward

theorem disconnect_core_wf (s0 : ServerState) (sid : SocketId) (hwf0 : WF s0) :
    WF { (leaveRoomFn s0 sid).1 with
          chatLimiter := alDel (leaveRoomFn s0 sid).1.chatLimiter sid,
          sockets := alDel (leaveRoomFn s0 sid).1.sockets sid } := by
  have hwf1 := leaveRoomFn_wf s0 sid hwf0
  have hnotin := leaveRoomFn_not_in_parts s0 sid hwf0
  constructor
  · exact hwf1.partsNodup
  · exact hwf1.registryNodup
  · intro r ps p hps hmem
    by_cases hps1 : p.1 = sid
    · exfalso
      have hsome := alGet_isSome_of_mem ps p hmem
      rw [hps1, hnotin r ps hps] at hsome
      simp at hsome
    · rw [alGet_alDel_ne _ _ _ hps1]
      exact hwf1.forward r ps p hps hmem
  · intro sid' d' r' hd' hr'
    by_cases hs : sid' = sid
    · rw [hs, alGet_alDel_self] at hd'
      exact Option.noConfusion hd'
    · rw [alGet_alDel_ne _ _ _ hs] at hd'
      exact hwf1.backward sid' d' r' hd' hr'

theorem disconnectH_wf (s : ServerState) (sid : SocketId) (hwf : WF s) :
    WF (disconnectH s sid).1 := by
  cases hd : alGet s.sockets sid with
  | none => simpa [disconnectH, hd] using hwf
  | some d =>
    cases hb : d.broadcastId with
    | none =>
        have hstate : (disconnectH s sid).1 =
            { (leaveRoomFn s sid).1 with
                chatLimiter := alDel (leaveRoomFn s sid).1.chatLimiter sid,
                sockets := alDel (leaveRoomFn s sid).1.sockets sid } := by
          simp [disconnectH, hd, hb]
        rw [hstate]
        exact disconnect_core_wf s sid hwf
    | some b =>
        by_cases hbe : (b != "") = true
        · have hstate : (disconnectH s sid).1 =
              { (leaveRoomFn { s with
                  broadcastRegistry := alDel s.broadcastRegistry b } sid).1 with
                  chatLimiter := alDel (leaveRoomFn { s with
                    broadcastRegistry := alDel s.broadcastRegistry b }
                    sid).1.chatLimiter sid,
                  sockets := alDel (leaveRoomFn { s with
                    broadcastRegistry := alDel s.broadcastRegistry b }
                    sid).1.sockets sid } := by
            simp [disconnectH, hd, hb, hbe]
          rw [hstate]
          exact disconnect_core_wf _ sid (wf_registry_del s b hwf)
        · have hstate : (disconnectH s sid).1 =
              { (leaveRoomFn s sid).1 with
                  chatLimiter := alDel (leaveRoomFn s sid).1.chatLimiter sid,
                  sockets := alDel (leaveRoomFn s sid).1.sockets sid } := by
            simp [disconnectH, hd, hb, hbe]
          rw [hstate]
          exact disconnect_core_wf s sid hwf

theorem wf_step (s : ServerState) (e : InEvent) (hwf : WF s) :
    WF (step s e).1 := by
  cases e with
  | connect sid uid uname => exact connectH_wf s sid uid uname hwf
  | joinRoom sid v => exact joinRoomH_wf s sid v hwf
  | leaveRoomEv sid =>
      show WF (match alGet s.sockets sid with
        | none => (s, ([] : List OutEvent))
        | some _ => leaveRoomFn s sid).1
      cases alGet s.sockets sid with
      | none => exact hwf
      | some d => exact leaveRoomFn_wf s sid hwf
  | disconnectEv sid => exact disconnectH_wf s sid hwf
  | createBroadcast sid v => exact createBroadcastH_wf s sid v hwf
  | joinBroadcast sid v =>
      rw [show (step s (.joinBroadcast sid v)).1 = (joinBroadcastH s sid v).1 from rfl]
      rw [joinBroadcastH_state]
      exact hwf
  | offerEv sid toV v =>
      rw [show (step s (.offerEv sid toV v)).1 = (relayH s sid toV v EmitPayload.offerRelay).1 from rfl]
      rw [relayH_state]
      exact hwf
  | answerEv sid toV v =>
      rw [show (step s (.answerEv sid toV v)).1 = (relayH s sid toV v EmitPayload.answerRelay).1 from rfl]
      rw [relayH_state]
      exact hwf
  | iceCandidateEv sid toV v =>
      rw [show (step s (.iceCandidateEv sid toV v)).1 = (relayH s sid toV v EmitPayload.iceCandidateRelay).1 from rfl]
      rw [relayH_state]
      exact hwf
  | chatMessage sid mid now roomIdV msgV =>
      have hf := chatMessageH_frame s sid mid now roomIdV msgV
      exact wf_of_eq s _ hwf hf.1 hf.2.1 hf.2.2
  | chatReaction sid roomIdV messageIdV emojiV =>
      have hf := chatReactionH_frame s sid roomIdV messageIdV emojiV
      exact wf_of_eq s _ hwf hf.1 hf.2.1 hf.2.2
  | toggleMute sid roomIdV mutedV => exact toggleMuteH_wf s sid roomIdV mutedV hwf
  | toggleVideo sid roomIdV videoOffV =>
      exact toggleVideoH_wf s sid roomIdV videoOffV hwf
  | screenShareStart sid roomIdV => exact screenShareStartH_wf s sid roomIdV hwf
  | screenShareStop sid roomIdV => exact screenShareStopH_wf s sid roomIdV hwf
  | handRaise sid roomIdV raisedV => exact handRaiseH_wf s sid roomIdV raisedV hwf
  | approveUser sid roomIdV userIdV =>
      have hf := waitingRoomH_frame s sid roomIdV userIdV true
      exact wf_of_eq s _ hwf hf.1 hf.2.1 hf.2.2
  | rejectUser sid roomIdV userIdV =>
      have hf := waitingRoomH_frame s sid roomIdV userIdV false
      exact wf_of_eq s _ hwf hf.1 hf.2.1 hf.2.2

theorem wf_reachable (s : ServerState) (h : Reachable s) : WF s := by
  induction h with
  | init => exact wf_initial
  | next s0 e _ ih => exact wf_step s0 e ih

theorem reachable_runSeq (s : ServerState) (es : List InEvent)
    (h : Reachable s) : Reachable (runSeq s es).1 := by
  induction es generalizing s with
  | nil => exact h
  | cons e rest ih => exact ih (step s e).1 (Reachable.next s e h)

/-- A demonstration state: connections A and B, both in room R. -/
def demoJoinedState : ServerState :=
  (runSeq initialState
    [.connect "A" none "alice", .connect "B" none "bob",
     .joinRoom "A" (.str "R"), .joinRoom "B" (.str "R")]).1

theorem demoJoinedState_reachable : Reachable demoJoinedState :=
  reachable_runSeq initialState _ Reachable.init

/-- C4: in every reachable broker state, every connection on a room's
roster (RoomRuntime) has its currentRoomId equal to that room, and
conversely every connection whose currentRoomId is a room r is on r's
roster.  Reachability quantifies over all operations (join-room including
room switches, leave-room, disconnect, presence toggles and the rest), so
the invariant is preserved by every one of them. -/
theorem C4_roster_iff_roomId (s : ServerState) (h : Reachable s) :
    (∀ r ps p, alGet s.roomParticipants r = some ps → p ∈ ps →
      ∃ d, alGet s.sockets p.1 = some d ∧ d.roomId = some r) ∧
    (∀ sid d r, alGet s.sockets sid = some d → d.roomId = some r →
      ∃ ps, alGet s.roomParticipants r = some ps ∧ (alGet ps sid).isSome) :=
  ⟨(wf_reachable s h).forward, (wf_reachable s h).backward⟩

theorem C4_roster_iff_roomId_witness :
    (∀ r ps p, alGet demoJoinedState.roomParticipants r = some ps → p ∈ ps →
      ∃ d, alGet demoJoinedState.sockets p.1 = some d ∧ d.roomId = some r) ∧
    (∀ sid d r, alGet demoJoinedState.sockets sid = some d →
      d.roomId = some r →
      ∃ ps, alGet demoJoinedState.roomParticipants r = some ps ∧
        (alGet ps sid).isSome) :=
  C4_roster_iff_roomId demoJoinedState demoJoinedState_reachable

/-- C6: the envelope validator rejects a payload that is null or
undefined, whose JSON serialization throws, or whose serialization
exceeds 65,536 characters, and the three relay handlers drop such an
envelope silently: no message of any kind is sent to anyone and the state
is unchanged. -/
theorem C6_invalid_envelopes_dropped (p : JsVal)
    (h : p = JsVal.null ∨ p = JsVal.undef ∨ stringify p = none ∨
      ∃ str, stringify p = some str ∧ str.length > MAX_PAYLOAD_SIZE) :
    isValidPayload p = false ∧
    ∀ (s : ServerState) (sid : SocketId) (toV : JsVal),
      step s (.offerEv sid toV p) = (s, []) ∧
      step s (.answerEv sid toV p) = (s, []) ∧
      step s (.iceCandidateEv sid toV p) = (s, []) := by
  have hval : isValidPayload p = false := by
    rcases h with h | h | h | ⟨str, hs, hlen⟩
    · rw [h]; rfl
    · rw [h]; rfl
    · cases p <;> simp_all [isValidPayload]
    · cases p <;> simp_all [isValidPayload]
  refine ⟨hval, ?_⟩
  intro s sid toV
  refine ⟨?_, ?_, ?_⟩ <;> (
    show relayH s sid toV p _ = (s, [])
    unfold relayH
    cases alGet s.sockets sid with
    | none => rfl
    | some d => simp [hval])

theorem C6_invalid_envelopes_dropped_witness :
    isValidPayload JsVal.null = false ∧
    ∀ (s : ServerState) (sid : SocketId) (toV : JsVal),
      step s (.offerEv sid toV JsVal.null) = (s, []) ∧
      step s (.answerEv sid toV JsVal.null) = (s, []) ∧
      step s (.iceCandidateEv sid toV JsVal.null) = (s, []) :=
  C6_invalid_envelopes_dropped JsVal.null (Or.inl rfl)

/-- C7: a valid signaling envelope addressed by A to a connected B is
delivered to B as the same event kind, carrying from = A and the payload
object exactly as sent: the broker forwards the received payload value
itself, rewriting nothing. -/
theorem C7_relay_roundtrip (s : ServerState) (a b : SocketId) (p : JsVal)
    (da db : SocketData) (ha : alGet s.sockets a = some da)
    (hb : alGet s.sockets b = some db) (hbne : b ≠ "")
    (hp : truthy p = true) (hv : isValidPayload p = true) :
    step s (.offerEv a (.str b) p) = (s, [.emit b (.offerRelay a p)]) ∧
    step s (.answerEv a (.str b) p) = (s, [.emit b (.answerRelay a p)]) ∧
    step s (.iceCandidateEv a (.str b) p) =
      (s, [.emit b (.iceCandidateRelay a p)]) := by
  have htr : truthy (JsVal.str b) = true := by simp [truthy, hbne]
  refine ⟨?_, ?_, ?_⟩ <;> (
    show relayH s a (.str b) p _ = _
    simp [relayH, ha, htr, hp, hv, emitDirect, hb])

theorem C7_relay_roundtrip_witness :
    step demoJoinedState
        (.offerEv "B" (.str "A") (.obj [("type", .str "offer")])) =
      (demoJoinedState,
       [.emit "A" (.offerRelay "B" (.obj [("type", .str "offer")]))]) ∧
    step demoJoinedState
        (.answerEv "B" (.str "A") (.obj [("type", .str "offer")])) =
      (demoJoinedState,
       [.emit "A" (.answerRelay "B" (.obj [("type", .str "offer")]))]) ∧
    step demoJoinedState
        (.iceCandidateEv "B" (.str "A") (.obj [("type", .str "offer")])) =
      (demoJoinedState,
       [.emit "A" (.iceCandidateRelay "B" (.obj [("type", .str "offer")]))]) :=
  C7_relay_roundtrip demoJoinedState "B" "A" (.obj [("type", .str "offer")])
    ⟨none, "bob", some "R", none⟩ ⟨none, "alice", some "R", none⟩
    (by rfl) (by rfl) (by decide) (by rfl) (by rfl)

/-- A reachable state in which connection A is the registered publisher of
broadcast b. -/
def demoBroadcastState : ServerState :=
  (runSeq initialState
    [.connect "A" none "alice", .connect "B" none "bob",
     .createBroadcast "A" (.str "b")]).1

/-- C1 counterexample: with A registered under b, a create-broadcast for b
from the different connection B does not fail and does not leave the
registry entry unchanged: the handler overwrites the entry with B and
echoes broadcast-created to B; no error-message is sent. -/
theorem C1_counterexample_different_publisher_overwrites :
    Reachable demoBroadcastState ∧
    alGet demoBroadcastState.broadcastRegistry "b" = some "A" ∧
    (step demoBroadcastState (.createBroadcast "B" (.str "b"))).2 =
      [.emit "B" (.broadcastCreated "b")] ∧
    alGet (step demoBroadcastState
      (.createBroadcast "B" (.str "b"))).1.broadcastRegistry "b" = some "B" :=
  ⟨reachable_runSeq initialState _ Reachable.init, rfl, rfl, rfl⟩

/-- C1 (amended): for a valid broadcastId (non-empty string of at most 64
chars) create-broadcast always succeeds for the requesting connection P:
the registry entry is set to P, replacing any currently registered
publisher whether or not it is P itself, and broadcast-created is echoed;
the error-message "Valid broadcastId is required" is sent exactly when the
broadcastId is invalid, in which case nothing changes. -/
theorem C1_amended_create_broadcast_always_replaces (s : ServerState)
    (sid : SocketId) (d : SocketData) (v : JsVal)
    (hd : alGet s.sockets sid = some d) :
    (invalidStrArg v 64 = true →
      step s (.createBroadcast sid v) =
        (s, [.emit sid (.errorMessage "Valid broadcastId is required")])) ∧
    (invalidStrArg v 64 = false →
      step s (.createBroadcast sid v) =
        ({ s with
            broadcastRegistry := alSet s.broadcastRegistry v.asString sid,
            sockets := alSet s.sockets sid
              { d with broadcastId := some v.asString } },
         [.emit sid (.broadcastCreated v.asString)])) ∧
    (invalidStrArg v 64 = false ↔
      ∃ str, v = .str str ∧ str ≠ "" ∧ str.length ≤ 64) := by
  refine ⟨?_, ?_, ?_⟩
  · intro hv
    show createBroadcastH s sid v = _
    simp [createBroadcastH, hd, hv]
  · intro hv
    show createBroadcastH s sid v = _
    simp [createBroadcastH, hd, hv]
  · constructor
    · intro hv
      cases v <;> simp_all [invalidStrArg, truthy, JsVal.isString, JsVal.asString]
    · rintro ⟨str, hstr, hne, hlen⟩
      subst hstr
      simp_all [invalidStrArg, truthy, JsVal.isString, JsVal.asString]

theorem C1_amended_create_broadcast_always_replaces_witness :
    (invalidStrArg (.str "b") 64 = true →
      step demoBroadcastState (.createBroadcast "B" (.str "b")) =
        (demoBroadcastState,
         [.emit "B" (.errorMessage "Valid broadcastId is required")])) ∧
    (invalidStrArg (.str "b") 64 = false →
      step demoBroadcastState (.createBroadcast "B" (.str "b")) =
        ({ demoBroadcastState with
            broadcastRegistry :=
              alSet demoBroadcastState.broadcastRegistry "b" "B",
            sockets := alSet demoBroadcastState.sockets "B"
              { userId := none, username := "bob", roomId := none,
                broadcastId := some "b" } },
         [.emit "B" (.broadcastCreated "b")])) ∧
    (invalidStrArg (.str "b") 64 = false ↔
      ∃ str, JsVal.str "b" = .str str ∧ str ≠ "" ∧ str.length ≤ 64) :=
  C1_amended_create_broadcast_always_replaces demoBroadcastState "B"
    ⟨none, "bob", none, none⟩ (.str "b") (by rfl)

/-- A reachable state in which A created broadcast b1 and then broadcast
b2 and then disconnected: the entry for b1 survives and names the now
disconnected A. -/
def staleBroadcastState : ServerState :=
  (runSeq initialState
    [.connect "A" none "alice", .createBroadcast "A" (.str "b1"),
     .createBroadcast "A" (.str "b2"), .disconnectEv "A"]).1

/-- C2 counterexample: in the reachable state staleBroadcastState the
registry maps b1 to connection A although A is no longer connected (so
the value is not a live publisher) and although A's currentBroadcastId
was b2, not b1, when it disconnected; A's disconnect removed only the b2
entry. -/
theorem C2_counterexample_stale_entry :
    Reachable staleBroadcastState ∧
    alGet staleBroadcastState.broadcastRegistry "b1" = some "A" ∧
    alGet staleBroadcastState.sockets "A" = none ∧
    alGet staleBroadcastState.broadcastRegistry "b2" = none :=
  ⟨reachable_runSeq initialState _ Reachable.init, rfl, rfl, rfl⟩

theorem disconnectH_registry (s : ServerState) (sid : SocketId)
    (d : SocketData) (hd : alGet s.sockets sid = some d) :
    (step s (.disconnectEv sid)).1.broadcastRegistry =
      match d.broadcastId with
      | some b =>
          if b != "" then alDel s.broadcastRegistry b
          else s.broadcastRegistry
      | none => s.broadcastRegistry := by
  show (disconnectH s sid).1.broadcastRegistry = _
  cases hb : d.broadcastId with
  | none =>
      have hreg := (leaveRoomFn_frame s sid).1
      simp [disconnectH, hd, hb, hreg]
  | some b =>
      by_cases hbe : (b != "") = true
      · have hreg := (leaveRoomFn_frame
          { s with broadcastRegistry := alDel s.broadcastRegistry b } sid).1
        simp [disconnectH, hd, hb, hbe, hreg]
      · have hreg := (leaveRoomFn_frame s sid).1
        simp [disconnectH, hd, hb, hbe, hreg]

/-- C2 (amended): in every reachable state the registry holds at most one
entry per broadcastId, and a disconnecting publisher removes exactly the
entry under its current (most recent) broadcastId, leaving every other
key, including keys it registered earlier, untouched; a registry value
may therefore name a disconnected connection, and the removed entry may
have been overwritten to point to a different publisher. -/
theorem C2_amended_registry_cleanup (s : ServerState) (h : Reachable s) :
    (s.broadcastRegistry.map Prod.fst).Nodup ∧
    (∀ sid d b, alGet s.sockets sid = some d → d.broadcastId = some b →
      b ≠ "" →
      alGet (step s (.disconnectEv sid)).1.broadcastRegistry b = none ∧
      ∀ b', b' ≠ b →
        alGet (step s (.disconnectEv sid)).1.broadcastRegistry b' =
          alGet s.broadcastRegistry b') := by
  refine ⟨(wf_reachable s h).registryNodup, ?_⟩
  intro sid d b hd hb hbne
  have hbe : (b != "") = true := by simpa using hbne
  have hreg := disconnectH_registry s sid d hd
  rw [hb] at hreg
  simp only [hbe, if_true] at hreg
  constructor
  · rw [hreg]
    exact alGet_alDel_self _ _
  · intro b' hbne'
    rw [hreg]
    exact alGet_alDel_ne _ _ _ hbne'

theorem C2_amended_registry_cleanup_witness :
    (demoBroadcastState.broadcastRegistry.map Prod.fst).Nodup ∧
    (∀ sid d b, alGet demoBroadcastState.sockets sid = some d →
      d.broadcastId = some b → b ≠ "" →
      alGet (step demoBroadcastState
        (.disconnectEv sid)).1.broadcastRegistry b = none ∧
      ∀ b', b' ≠ b →
        alGet (step demoBroadcastState
          (.disconnectEv sid)).1.broadcastRegistry b' =
          alGet demoBroadcastState.broadcastRegistry b') :=
  C2_amended_registry_cleanup demoBroadcastState
    (reachable_runSeq initialState _ Reachable.init)

/-- The ChatMessage record the chat-message handler constructs. -/
def mkChatMsg (d : SocketData) (mid : String) (now : Nat) (m : String) :
    ChatMsg :=
  ⟨mid, normUserId d.userId, d.username, jsTrim m, now, []⟩

theorem chatMessageH_accepted (s : ServerState) (sid : SocketId)
    (d : SocketData) (mid : String) (now : Nat) (r m : String)
    (hd : alGet s.sockets sid = some d) (hr : r ≠ "") (hm1 : m ≠ "")
    (hm2 : 1 ≤ (jsTrim m).length) (hm3 : (jsTrim m).length ≤ 1000)
    (hrate : (checkChatRate s.chatLimiter sid now).1 = true) :
    (step s (.chatMessage sid mid now (.str r) (.str m))).2 =
      OutEvent.persistChat r (mkChatMsg d mid now m) ::
        emitRoomAll s r (.chatMessageEv (mkChatMsg d mid now m)) := by
  show (chatMessageH s sid mid now (.str r) (.str m)).2 = _
  have hz : (jsTrim m).length ≠ 0 := by omega
  have hgt : ¬ (1000 < (jsTrim m).length) := by omega
  simp [chatMessageH, hd, truthy, hr, hm1, hz, hgt, hrate, mkChatMsg,
    JsVal.isString, JsVal.asString, emitRoomAll, roomKeys, getParticipantList]

/-- C10 (implicit): the chat-message handler performs no membership check:
a well-formed, rate-admitted chat message from a connected sender is
always persisted (the store write is enqueued) and fanned out to the
claimed room's roster, whether or not the sender is on that roster and
whether or not the room even exists; the sender itself receives the
fan-out copy exactly when it is on the roster, which in a reachable state
means exactly when it had joined that room. -/
theorem C10_chat_no_membership_check (s : ServerState) (sid : SocketId)
    (d : SocketData) (mid : String) (now : Nat) (r m : String)
    (hreach : Reachable s) (hd : alGet s.sockets sid = some d) (hr : r ≠ "")
    (hm1 : m ≠ "") (hm2 : 1 ≤ (jsTrim m).length) (hm3 : (jsTrim m).length ≤ 1000)
    (hrate : (checkChatRate s.chatLimiter sid now).1 = true) :
    (step s (.chatMessage sid mid now (.str r) (.str m))).2 =
      OutEvent.persistChat r (mkChatMsg d mid now m) ::
        emitRoomAll s r (.chatMessageEv (mkChatMsg d mid now m)) ∧
    (OutEvent.emit sid (.chatMessageEv (mkChatMsg d mid now m)) ∈
        (step s (.chatMessage sid mid now (.str r) (.str m))).2 ↔
      sid ∈ roomKeys s r) ∧
    (sid ∈ roomKeys s r ↔ d.roomId = some r) := by
  have hwf := wf_reachable s hreach
  have houts := chatMessageH_accepted s sid d mid now r m hd hr hm1 hm2 hm3 hrate
  refine ⟨houts, ?_, ?_⟩
  · rw [houts]
    constructor
    · intro hmem
      rcases List.mem_cons.mp hmem with hhead | htail
      · exact absurd hhead (by simp)
      · rcases List.mem_map.mp htail with ⟨t, ht, heq⟩
        have : t = sid := by
          injection heq with h1 h2
        rw [← this]
        exact ht
    · intro hmem
      exact List.mem_cons_of_mem _ (List.mem_map_of_mem _ hmem)
  · constructor
    · intro hmem
      unfold roomKeys getParticipantList at hmem
      cases hp : alGet s.roomParticipants r with
      | none => rw [hp] at hmem; simp at hmem
      | some ps =>
          rw [hp] at hmem
          simp only [Option.getD_some] at hmem
          rcases List.mem_map.mp hmem with ⟨p, hpmem, hfst⟩
          rcases hwf.forward r ps p hp hpmem with ⟨d', hd', hr'⟩
          rw [hfst, hd] at hd'
          rw [← Option.some.inj hd'] at hr'
          exact hr'
    · intro hroom
      rcases hwf.backward sid d r hd hroom with ⟨ps, hps, hsome⟩
      unfold roomKeys getParticipantList
      rw [hps]
      simp only [Option.getD_some]
      rcases Option.isSome_iff_exists.mp hsome with ⟨v, hv⟩
      exact List.mem_map_of_mem Prod.fst (alGet_mem ps sid v hv)

theorem C10_chat_no_membership_check_witness :
    (step demoBroadcastState (.chatMessage "A" "m1" 0 (.str "R") (.str "hi"))).2 =
      OutEvent.persistChat "R"
          (mkChatMsg ⟨none, "alice", none, some "b"⟩ "m1" 0 "hi") ::
        emitRoomAll demoBroadcastState "R"
          (.chatMessageEv (mkChatMsg ⟨none, "alice", none, some "b"⟩ "m1" 0 "hi")) ∧
    (OutEvent.emit "A"
        (.chatMessageEv (mkChatMsg ⟨none, "alice", none, some "b"⟩ "m1" 0 "hi")) ∈
        (step demoBroadcastState
          (.chatMessage "A" "m1" 0 (.str "R") (.str "hi"))).2 ↔
      "A" ∈ roomKeys demoBroadcastState "R") ∧
    ("A" ∈ roomKeys demoBroadcastState "R" ↔
      (⟨none, "alice", none, some "b"⟩ : SocketData).roomId = some "R") :=
  C10_chat_no_membership_check demoBroadcastState "A"
    ⟨none, "alice", none, some "b"⟩ "m1" 0 "R" "hi"
    (reachable_runSeq initialState _ Reachable.init) (by rfl) (by decide)
    (by decide) (by decide) (by decide) (by rfl)

/-- The room record with a user filtered out of its waiting list. -/
def roomWithoutWaiting (room : RoomRecord) (u : String) : RoomRecord :=
  { room with waitingRoom := room.waitingRoom.filter (fun id => id != u) }

/-- C9: approve-user and reject-user with present roomId and userId load
the room record; if it does not exist or the acting connection's userId
does not coerce to the room's creator, the sender alone receives the
generic error and nothing changes; if the acting connection is the
creator, the target is removed from the persisted waitingRoom list, the
corresponding waiting-room event is sent to the first currently connected
socket of the target user when one exists, and waiting-room-updated with
the updated list is echoed to the acting host. -/
theorem C9_waiting_room_creator_gate (s : ServerState) (sid : SocketId)
    (d : SocketData) (r : String) (userIdV : JsVal)
    (hd : alGet s.sockets sid = some d) (hr : r ≠ "")
    (hu : truthy userIdV = true) :
    ((∀ room, alGet s.rooms r = some room →
        room.creator ≠ jsStringOfOpt d.userId) →
      step s (.approveUser sid (.str r) userIdV) =
        (s, [.emit sid
          (.errorMessage "Only room creator can manage waiting room")]) ∧
      step s (.rejectUser sid (.str r) userIdV) =
        (s, [.emit sid
          (.errorMessage "Only room creator can manage waiting room")])) ∧
    (∀ room, alGet s.rooms r = some room →
      room.creator = jsStringOfOpt d.userId →
      step s (.approveUser sid (.str r) userIdV) =
        ({ s with rooms := alSet s.rooms r (roomWithoutWaiting room (jsStringOf userIdV)) },
         (match findUserSocket s (jsStringOf userIdV) with
          | some t => [OutEvent.emit t.1 (.waitingRoomApproved r)]
          | none => []) ++
         [.emit sid (.waitingRoomUpdated
            (roomWithoutWaiting room (jsStringOf userIdV)).waitingRoom)]) ∧
      step s (.rejectUser sid (.str r) userIdV) =
        ({ s with rooms := alSet s.rooms r (roomWithoutWaiting room (jsStringOf userIdV)) },
         (match findUserSocket s (jsStringOf userIdV) with
          | some t => [OutEvent.emit t.1 (.waitingRoomRejected r)]
          | none => []) ++
         [.emit sid (.waitingRoomUpdated
            (roomWithoutWaiting room (jsStringOf userIdV)).waitingRoom)])) := by
  have htr : truthy (.str r) = true := by simp [truthy, hr]
  constructor
  · intro hden
    cases hroom : alGet s.rooms r with
    | none =>
        constructor <;> (
          show waitingRoomH s sid (.str r) userIdV _ = _
          simp [waitingRoomH, handleWaitingRoomAction, hd, htr, hr, hu,
            hroom])
    | some room =>
        have hne : (room.creator != jsStringOfOpt d.userId) = true := by
          simpa using hden room hroom
        constructor <;> (
          show waitingRoomH s sid (.str r) userIdV _ = _
          simp [waitingRoomH, handleWaitingRoomAction, hd, htr, hr, hu,
            hroom, hne])
  · intro room hroom hcr
    have heq : (room.creator != jsStringOfOpt d.userId) = false := by
      simpa using hcr
    constructor <;> (
      show waitingRoomH s sid (.str r) userIdV _ = _
      simp [waitingRoomH, handleWaitingRoomAction, roomWithoutWaiting, hd,
        htr, hr, hu, hroom, heq, JsVal.asString])

/-- A state whose persistent store holds a room R created by user u1 with
two users waiting, with the creator and the first waiting user connected. -/
def demoRoomState : ServerState :=
  { sockets :=
      [("H", ⟨some "u1", "host", none, none⟩),
       ("G", ⟨some "u2", "guest", none, none⟩)],
    roomParticipants := [], broadcastRegistry := [], chatLimiter := [],
    rooms := [("R", ⟨"u1", ["u2", "u3"], []⟩)] }

theorem C9_waiting_room_creator_gate_witness :
    ((∀ room, alGet demoRoomState.rooms "R" = some room →
        room.creator ≠ jsStringOfOpt (some "u2")) →
      step demoRoomState (.approveUser "G" (.str "R") (.str "u3")) =
        (demoRoomState, [.emit "G"
          (.errorMessage "Only room creator can manage waiting room")]) ∧
      step demoRoomState (.rejectUser "G" (.str "R") (.str "u3")) =
        (demoRoomState, [.emit "G"
          (.errorMessage "Only room creator can manage waiting room")])) ∧
    (∀ room, alGet demoRoomState.rooms "R" = some room →
      room.creator = jsStringOfOpt (some "u2") →
      step demoRoomState (.approveUser "G" (.str "R") (.str "u3")) =
        ({ demoRoomState with rooms := alSet demoRoomState.rooms "R" (roomWithoutWaiting room (jsStringOf (.str "u3"))) },
         (match findUserSocket demoRoomState (jsStringOf (.str "u3")) with
          | some t => [OutEvent.emit t.1 (.waitingRoomApproved "R")]
          | none => []) ++
         [.emit "G" (.waitingRoomUpdated
            (roomWithoutWaiting room (jsStringOf (.str "u3"))).waitingRoom)]) ∧
      step demoRoomState (.rejectUser "G" (.str "R") (.str "u3")) =
        ({ demoRoomState with rooms := alSet demoRoomState.rooms "R" (roomWithoutWaiting room (jsStringOf (.str "u3"))) },
         (match findUserSocket demoRoomState (jsStringOf (.str "u3")) with
          | some t => [OutEvent.emit t.1 (.waitingRoomRejected "R")]
          | none => []) ++
         [.emit "G" (.waitingRoomUpdated
            (roomWithoutWaiting room (jsStringOf (.str "u3"))).waitingRoom)])) :=
  C9_waiting_room_creator_gate demoRoomState "G"
    ⟨some "u2", "guest", none, none⟩ "R" (.str "u3") (by rfl) (by decide)
    (by rfl)

theorem leaveRoomFn_outs_parts (s : ServerState) (sid : SocketId)
    (d : SocketData) (roomId : String)
    (parts : List (SocketId × ParticipantInfo))
    (hd : alGet s.sockets sid = some d) (hr : d.roomId = some roomId)
    (hp : alGet s.roomParticipants roomId = some parts) :
    (leaveRoomFn s sid).2 =
      emitRoomExcept s roomId sid (.userLeft sid d.username) := by
  by_cases hempty : (alDel parts sid).isEmpty <;>
    simp [leaveRoomFn, hd, hr, hp, hempty]

theorem roomKeys_nodup (s : ServerState) (hwf : WF s) (r : String) :
    (roomKeys s r).Nodup := by
  unfold roomKeys getParticipantList
  cases hp : alGet s.roomParticipants r with
  | none => simp
  | some ps => simpa using hwf.partsNodup r ps hp

/-- Whether an outbound action is a user-left emission about sid sent to
t. -/
def isUserLeftTo (t sid : SocketId) : OutEvent → Bool := fun o =>
  match o with
  | .emit t' (.userLeft sid' _) => t' == t && sid' == sid
  | _ => false

theorem countP_userLeft_emitRoomExcept (s : ServerState) (r : String)
    (sid t : SocketId) (uname : String) (ht : t ∈ roomKeys s r)
    (hne : t ≠ sid) (hnd : (roomKeys s r).Nodup) :
    (emitRoomExcept s r sid (.userLeft sid uname)).countP
      (isUserLeftTo t sid) = 1 := by
  unfold emitRoomExcept
  rw [List.countP_map]
  have hpred : ((isUserLeftTo t sid) ∘
      fun t' => OutEvent.emit t' (.userLeft sid uname)) =
      fun t' => t' == t := by
    funext t'
    simp [isUserLeftTo, Function.comp]
  rw [hpred]
  show ((roomKeys s r).filter (fun x => x != sid)).count t = 1
  apply List.count_eq_one_of_mem
  · exact hnd.filter _
  · exact List.mem_filter.mpr ⟨ht, by simpa using hne⟩

theorem disconnectH_outs (s : ServerState) (sid : SocketId) (d : SocketData)
    (roomId : String) (parts : List (SocketId × ParticipantInfo))
    (hd : alGet s.sockets sid = some d) (hr : d.roomId = some roomId)
    (hp : alGet s.roomParticipants roomId = some parts) :
    (step s (.disconnectEv sid)).2 =
      emitRoomExcept s roomId sid (.userLeft sid d.username) := by
  show (disconnectH s sid).2 = _
  cases hb : d.broadcastId with
  | none =>
      have houts := leaveRoomFn_outs_parts s sid d roomId parts hd hr hp
      simp [disconnectH, hd, hb, houts]
  | some b =>
      by_cases hbe : (b != "") = true
      · have houts := leaveRoomFn_outs_parts
          { s with broadcastRegistry := alDel s.broadcastRegistry b }
          sid d roomId parts hd hr hp
        simp only [disconnectH, hd, hb, hbe, if_true]
        rw [houts]
        rfl
      · have houts := leaveRoomFn_outs_parts s sid d roomId parts hd hr hp
        simp [disconnectH, hd, hb, hbe, houts]

/-- After cleanup, a connection is gone or recorded with no current room. -/
def LeftOrGone (s : ServerState) (sid : SocketId) : Prop :=
  alGet s.sockets sid = none ∨
    ∃ d, alGet s.sockets sid = some d ∧ d.roomId = none

theorem disconnectH_removes (s : ServerState) (sid : SocketId) :
    alGet (step s (.disconnectEv sid)).1.sockets sid = none := by
  show alGet (disconnectH s sid).1.sockets sid = none
  cases hd : alGet s.sockets sid with
  | none => simp [disconnectH, hd]
  | some d =>
      cases hb : d.broadcastId with
      | none => simp [disconnectH, hd, hb, alGet_alDel_self]
      | some b =>
          by_cases hbe : (b != "") = true <;>
            simp [disconnectH, hd, hb, hbe, alGet_alDel_self]

theorem step_quiet_of_leftOrGone (s : ServerState) (sid : SocketId)
    (h : LeftOrGone s sid) (e : InEvent)
    (he : e = .leaveRoomEv sid ∨ e = .disconnectEv sid) :
    (step s e).2 = [] ∧ LeftOrGone (step s e).1 sid := by
  rcases he with he | he <;> subst he
  · rcases h with hnone | ⟨d, hd, hr⟩
    · constructor
      · show (match alGet s.sockets sid with
          | none => (s, ([] : List OutEvent))
          | some _ => leaveRoomFn s sid).2 = []
        rw [hnone]
      · show LeftOrGone (match alGet s.sockets sid with
          | none => (s, ([] : List OutEvent))
          | some _ => leaveRoomFn s sid).1 sid
        rw [hnone]
        exact Or.inl hnone
    · have heq := leaveRoomFn_eq_no_room s sid d hd hr
      constructor
      · show (match alGet s.sockets sid with
          | none => (s, ([] : List OutEvent))
          | some _ => leaveRoomFn s sid).2 = []
        rw [hd, heq]
      · show LeftOrGone (match alGet s.sockets sid with
          | none => (s, ([] : List OutEvent))
          | some _ => leaveRoomFn s sid).1 sid
        rw [hd, heq]
        exact Or.inr ⟨d, hd, hr⟩
  · refine ⟨?_, Or.inl (disconnectH_removes s sid)⟩
    rcases h with hnone | ⟨d, hd, hr⟩
    · show (disconnectH s sid).2 = []
      simp [disconnectH, hnone]
    · show (disconnectH s sid).2 = []
      cases hb : d.broadcastId with
      | none =>
          have heq := leaveRoomFn_eq_no_room s sid d hd hr
          simp [disconnectH, hd, hb, heq]
      | some b =>
          by_cases hbe : (b != "") = true
          · have heq := leaveRoomFn_eq_no_room
              { s with broadcastRegistry := alDel s.broadcastRegistry b }
              sid d hd hr
            simp [disconnectH, hd, hb, hbe, heq]
          · have heq := leaveRoomFn_eq_no_room s sid d hd hr
            simp [disconnectH, hd, hb, hbe, heq]

theorem runSeq_cons (s : ServerState) (e : InEvent) (rest : List InEvent) :
    runSeq s (e :: rest) =
      ((runSeq (step s e).1 rest).1,
        (step s e).2 ++ (runSeq (step s e).1 rest).2) := rfl

theorem runSeq_quiet (s : ServerState) (sid : SocketId) (es : List InEvent)
    (h : LeftOrGone s sid)
    (hes : ∀ e ∈ es, e = .leaveRoomEv sid ∨ e = .disconnectEv sid) :
    (runSeq s es).2 = [] := by
  induction es generalizing s with
  | nil => rfl
  | cons e rest ih =>
      have hstep := step_quiet_of_leftOrGone s sid h e
        (hes e (List.mem_cons_self e rest))
      rw [runSeq_cons]
      show (step s e).2 ++ (runSeq (step s e).1 rest).2 = []
      rw [hstep.1, ih (step s e).1 hstep.2
        (fun e' he' => hes e' (List.mem_cons_of_mem _ he'))]
      rfl

theorem roomKeys_parts_exists (s : ServerState) (r : String) (t : SocketId)
    (ht : t ∈ roomKeys s r) :
    ∃ parts, alGet s.roomParticipants r = some parts := by
  unfold roomKeys getParticipantList at ht
  cases hp : alGet s.roomParticipants r with
  | none => rw [hp] at ht; simp at ht
  | some parts => exact ⟨parts, rfl⟩

/-- C3: from a state in which sid has joined room r, any nonempty sequence
of leave-room and disconnect events of sid emits, to each other occupant
t of the room, the user-left notification about sid exactly once: the
first event emits it once, and all later leave-room or disconnect events
of sid emit nothing at all. -/
theorem C3_user_left_exactly_once (s : ServerState) (sid t : SocketId)
    (d : SocketData) (r : String) (hwf : WF s)
    (hd : alGet s.sockets sid = some d) (hr : d.roomId = some r)
    (ht : t ∈ roomKeys s r) (hne : t ≠ sid) (es : List InEvent)
    (hnil : es ≠ [])
    (hes : ∀ e ∈ es, e = .leaveRoomEv sid ∨ e = .disconnectEv sid) :
    ((runSeq s es).2.countP (isUserLeftTo t sid)) = 1 := by
  cases es with
  | nil => exact absurd rfl hnil
  | cons e rest =>
      rcases roomKeys_parts_exists s r t ht with ⟨parts, hp⟩
      have houts : (step s e).2 =
          emitRoomExcept s r sid (.userLeft sid d.username) := by
        rcases hes e (List.mem_cons_self e rest) with he | he <;> subst he
        · show (match alGet s.sockets sid with
            | none => (s, ([] : List OutEvent))
            | some _ => leaveRoomFn s sid).2 = _
          rw [hd]
          exact leaveRoomFn_outs_parts s sid d r parts hd hr hp
        · exact disconnectH_outs s sid d r parts hd hr hp
      have hafter : LeftOrGone (step s e).1 sid := by
        rcases hes e (List.mem_cons_self e rest) with he | he <;> subst he
        · show LeftOrGone (match alGet s.sockets sid with
            | none => (s, ([] : List OutEvent))
            | some _ => leaveRoomFn s sid).1 sid
          rw [hd]
          exact Or.inr ⟨{ d with roomId := none },
            leaveRoomFn_sockets_self s sid d hd, rfl⟩
        · exact Or.inl (disconnectH_removes s sid)
      rw [runSeq_cons]
      show ((step s e).2 ++ (runSeq (step s e).1 rest).2).countP
        (isUserLeftTo t sid) = 1
      rw [runSeq_quiet (step s e).1 sid rest hafter
        (fun e' he' => hes e' (List.mem_cons_of_mem _ he'))]
      rw [List.append_nil, houts]
      exact countP_userLeft_emitRoomExcept s r sid t d.username ht hne
        (roomKeys_nodup s hwf r)

theorem C3_user_left_exactly_once_witness :
    ((runSeq demoJoinedState
      [.leaveRoomEv "A", .leaveRoomEv "A", .disconnectEv "A"]).2.countP
        (isUserLeftTo "B" "A")) = 1 :=
  C3_user_left_exactly_once demoJoinedState "A" "B"
    ⟨none, "alice", some "R", none⟩ "R"
    (wf_reachable demoJoinedState demoJoinedState_reachable) (by rfl) (by rfl)
    (by decide) (by decide) _ (List.cons_ne_nil _ _)
    (by
      intro e he
      rcases List.mem_cons.mp he with h1 | he2
      · exact Or.inl h1
      · rcases List.mem_cons.mp he2 with h2 | he3
        · exact Or.inl h2
        · rcases List.mem_cons.mp he3 with h3 | he4
          · exact Or.inr h3
          · simp at he4)

theorem mem_emitRoomExcept (s : ServerState) (r : String) (sid t : SocketId)
    (p : EmitPayload) (ht : t ∈ roomKeys s r) (hne : t ≠ sid) :
    OutEvent.emit t p ∈ emitRoomExcept s r sid p := by
  unfold emitRoomExcept
  exact List.mem_map_of_mem _ (List.mem_filter.mpr ⟨ht, by simpa using hne⟩)

theorem mem_emitRoomExcept_shape (s : ServerState) (r : String)
    (sid : SocketId) (p : EmitPayload) (o : OutEvent)
    (ho : o ∈ emitRoomExcept s r sid p) : ∃ t, o = OutEvent.emit t p := by
  unfold emitRoomExcept at ho
  rcases List.mem_map.mp ho with ⟨t, _, heq⟩
  exact ⟨t, heq.symm⟩

theorem leaveRoomFn_outs_shape (s : ServerState) (sid : SocketId)
    (o : OutEvent) (ho : o ∈ (leaveRoomFn s sid).2) :
    ∃ t sid' un, o = OutEvent.emit t (.userLeft sid' un) := by
  cases hd : alGet s.sockets sid with
  | none =>
      rw [leaveRoomFn_eq_not_connected s sid hd] at ho
      simp at ho
  | some d =>
      cases hr : d.roomId with
      | none =>
          rw [leaveRoomFn_eq_no_room s sid d hd hr] at ho
          simp at ho
      | some roomId =>
          cases hp : alGet s.roomParticipants roomId with
          | none =>
              have : (leaveRoomFn s sid).2 = [] := by
                simp [leaveRoomFn, hd, hr, hp]
              rw [this] at ho
              simp at ho
          | some parts =>
              rw [leaveRoomFn_outs_parts s sid d roomId parts hd hr hp] at ho
              rcases mem_emitRoomExcept_shape _ _ _ _ _ ho with ⟨t, heq⟩
              exact ⟨t, sid, d.username, heq⟩

theorem joinRoomH_valid_no_prev (s : ServerState) (sid : SocketId)
    (v : JsVal) (d : SocketData) (hd : alGet s.sockets sid = some d)
    (hv : invalidStrArg v 128 = false) (hprev : d.roomId = none) :
    joinRoomH s sid v = joinCore s sid d v.asString := by
  simp [joinRoomH, hd, hv, hprev]

theorem joinRoomH_valid_prev (s : ServerState) (sid : SocketId) (v : JsVal)
    (d : SocketData) (r0 : String) (hd : alGet s.sockets sid = some d)
    (hv : invalidStrArg v 128 = false) (hprev : d.roomId = some r0) :
    joinRoomH s sid v =
      ((joinCore (leaveRoomFn s sid).1 sid { d with roomId := none }
          v.asString).1,
       (leaveRoomFn s sid).2 ++
         (joinCore (leaveRoomFn s sid).1 sid { d with roomId := none }
           v.asString).2) := by
  simp [joinRoomH, hd, hv, hprev, leaveRoomFn_sockets_self s sid d hd]

theorem joinCore_sockets (s1 : ServerState) (sid : SocketId) (d1 : SocketData)
    (roomId : String) :
    alGet (joinCore s1 sid d1 roomId).1.sockets sid =
      some { d1 with roomId := some roomId } := by
  simp [joinCore, alGet_alSet_self]

theorem joinCore_roster (s1 : ServerState) (sid : SocketId) (d1 : SocketData)
    (roomId : String) :
    alGet (joinCore s1 sid d1 roomId).1.roomParticipants roomId =
      some (alSet ((alGet s1.roomParticipants roomId).getD []) sid
        ⟨d1.userId, d1.username, false, false, false, false⟩) := by
  simp [joinCore, alGet_alSet_self]

theorem joinCore_outs (s1 : ServerState) (sid : SocketId) (d1 : SocketData)
    (roomId : String) :
    (joinCore s1 sid d1 roomId).2 =
      emitRoomExcept (joinCore s1 sid d1 roomId).1 roomId sid
        (.userJoined sid d1.userId d1.username) ++
      [.emit sid (.roomParticipantsEv
        (getParticipantList (joinCore s1 sid d1 roomId).1 roomId))] := rfl

/-- C8: join-room with an invalid roomId (not a non-empty string of at
most 128 chars) sends "Valid roomId is required" to the sender and
changes nothing; with a valid roomId the connection first leaves any
previous room (emitting user-left to that room's other occupants), is
recorded in the target room's roster with all four presence flags false,
user-joined with its connectionId, userId and username is emitted to
every other occupant, and the full roster including the joiner is sent to
the joiner only. -/
theorem C8_join_room_contract (s : ServerState) (sid : SocketId)
    (d : SocketData) (v : JsVal) (hd : alGet s.sockets sid = some d) :
    (invalidStrArg v 128 = true →
      step s (.joinRoom sid v) =
        (s, [.emit sid (.errorMessage "Valid roomId is required")])) ∧
    (invalidStrArg v 128 = false →
      alGet (step s (.joinRoom sid v)).1.sockets sid =
        some { d with roomId := some v.asString } ∧
      (∃ parts', alGet (step s (.joinRoom sid v)).1.roomParticipants
          v.asString = some parts' ∧
        alGet parts' sid =
          some ⟨d.userId, d.username, false, false, false, false⟩) ∧
      sid ∈ roomKeys (step s (.joinRoom sid v)).1 v.asString ∧
      (∀ t, t ∈ roomKeys (step s (.joinRoom sid v)).1 v.asString → t ≠ sid →
        OutEvent.emit t (.userJoined sid d.userId d.username) ∈
          (step s (.joinRoom sid v)).2) ∧
      OutEvent.emit sid (.roomParticipantsEv
          (getParticipantList (step s (.joinRoom sid v)).1 v.asString)) ∈
        (step s (.joinRoom sid v)).2 ∧
      (∀ t l, OutEvent.emit t (.roomParticipantsEv l) ∈
        (step s (.joinRoom sid v)).2 → t = sid) ∧
      (∀ r0, d.roomId = some r0 → ∀ t, t ∈ roomKeys s r0 → t ≠ sid →
        OutEvent.emit t (.userLeft sid d.username) ∈
          (step s (.joinRoom sid v)).2)) ∧
    (invalidStrArg v 128 = false ↔
      ∃ str, v = .str str ∧ str ≠ "" ∧ str.length ≤ 128) := by
  refine ⟨?_, ?_, ?_⟩
  · intro hv
    show joinRoomH s sid v = _
    simp [joinRoomH, hd, hv]
  · intro hv
    cases hprev : d.roomId with
    | none =>
        rw [show step s (.joinRoom sid v) = joinRoomH s sid v from rfl,
          joinRoomH_valid_no_prev s sid v d hd hv hprev]
        have hsid_mem : sid ∈ roomKeys (joinCore s sid d v.asString).1
            v.asString := by
          unfold roomKeys getParticipantList
          rw [joinCore_roster]
          simp only [Option.getD_some]
          exact List.mem_map_of_mem Prod.fst
            (alGet_mem _ _ _ (alGet_alSet_self _ _ _))
        refine ⟨joinCore_sockets s sid d v.asString,
          ⟨_, joinCore_roster s sid d v.asString, alGet_alSet_self _ _ _⟩,
          hsid_mem, ?_, ?_, ?_, ?_⟩
        · intro t ht hne
          rw [joinCore_outs]
          exact List.mem_append_left _
            (mem_emitRoomExcept _ _ _ _ _ ht hne)
        · rw [joinCore_outs]
          exact List.mem_append_right _ (List.mem_singleton.mpr rfl)
        · intro t l hmem
          rw [joinCore_outs] at hmem
          rcases List.mem_append.mp hmem with hmem | hmem
          · rcases mem_emitRoomExcept_shape _ _ _ _ _ hmem with ⟨t', heq⟩
            exact absurd heq (by simp)
          · rcases List.mem_singleton.mp hmem with heq
            injection heq
        · intro r0 hr0
          exact absurd hr0 (by simp)
    | some r0 =>
        rw [show step s (.joinRoom sid v) = joinRoomH s sid v from rfl,
          joinRoomH_valid_prev s sid v d r0 hd hv hprev]
        have hsid_mem : sid ∈ roomKeys
            (joinCore (leaveRoomFn s sid).1 sid { d with roomId := none }
              v.asString).1 v.asString := by
          unfold roomKeys getParticipantList
          rw [joinCore_roster]
          simp only [Option.getD_some]
          exact List.mem_map_of_mem Prod.fst
            (alGet_mem _ _ _ (alGet_alSet_self _ _ _))
        refine ⟨joinCore_sockets _ sid _ v.asString,
          ⟨_, joinCore_roster _ sid _ v.asString, alGet_alSet_self _ _ _⟩,
          hsid_mem, ?_, ?_, ?_, ?_⟩
        · intro t ht hne
          apply List.mem_append_right
          rw [joinCore_outs]
          exact List.mem_append_left _
            (mem_emitRoomExcept _ _ _ _ _ ht hne)
        · apply List.mem_append_right
          rw [joinCore_outs]
          exact List.mem_append_right _ (List.mem_singleton.mpr rfl)
        · intro t l hmem
          rcases List.mem_append.mp hmem with hmem | hmem
          · rcases leaveRoomFn_outs_shape s sid _ hmem with ⟨t', sid', un, heq⟩
            exact absurd heq (by simp)
          · rw [joinCore_outs] at hmem
            rcases List.mem_append.mp hmem with hmem | hmem
            · rcases mem_emitRoomExcept_shape _ _ _ _ _ hmem with ⟨t', heq⟩
              exact absurd heq (by simp)
            · rcases List.mem_singleton.mp hmem with heq
              injection heq
        · intro r1 hr1 t ht hne
          have hre : r0 = r1 := Option.some.inj hr1
          subst hre
          rcases roomKeys_parts_exists s r0 t ht with ⟨parts, hp⟩
          apply List.mem_append_left
          rw [leaveRoomFn_outs_parts s sid d r0 parts hd hprev hp]
          exact mem_emitRoomExcept _ _ _ _ _ ht hne
  · constructor
    · intro hv
      cases v <;> simp_all [invalidStrArg, truthy, JsVal.isString,
        JsVal.asString]
    · rintro ⟨str, hstr, hne, hlen⟩
      subst hstr
      simp_all [invalidStrArg, truthy, JsVal.isString, JsVal.asString]

theorem C8_join_room_contract_witness :
    (invalidStrArg (.str "S") 128 = true →
      step demoJoinedState (.joinRoom "B" (.str "S")) =
        (demoJoinedState,
         [.emit "B" (.errorMessage "Valid roomId is required")])) ∧
    (invalidStrArg (.str "S") 128 = false →
      alGet (step demoJoinedState (.joinRoom "B" (.str "S"))).1.sockets "B" =
        some { userId := none, username := "bob",
               roomId := some (JsVal.str "S").asString, broadcastId := none } ∧
      (∃ parts', alGet (step demoJoinedState
          (.joinRoom "B" (.str "S"))).1.roomParticipants
            (JsVal.str "S").asString = some parts' ∧
        alGet parts' "B" =
          some ⟨none, "bob", false, false, false, false⟩) ∧
      "B" ∈ roomKeys (step demoJoinedState (.joinRoom "B" (.str "S"))).1
        (JsVal.str "S").asString ∧
      (∀ t, t ∈ roomKeys (step demoJoinedState
          (.joinRoom "B" (.str "S"))).1 (JsVal.str "S").asString → t ≠ "B" →
        OutEvent.emit t (.userJoined "B" none "bob") ∈
          (step demoJoinedState (.joinRoom "B" (.str "S"))).2) ∧
      OutEvent.emit "B" (.roomParticipantsEv
          (getParticipantList (step demoJoinedState
            (.joinRoom "B" (.str "S"))).1 (JsVal.str "S").asString)) ∈
        (step demoJoinedState (.joinRoom "B" (.str "S"))).2 ∧
      (∀ t l, OutEvent.emit t (.roomParticipantsEv l) ∈
        (step demoJoinedState (.joinRoom "B" (.str "S"))).2 → t = "B") ∧
      (∀ r0, (some "R" : Option String) = some r0 →
        ∀ t, t ∈ roomKeys demoJoinedState r0 → t ≠ "B" →
        OutEvent.emit t (.userLeft "B" "bob") ∈
          (step demoJoinedState (.joinRoom "B" (.str "S"))).2)) ∧
    (invalidStrArg (.str "S") 128 = false ↔
      ∃ str, JsVal.str "S" = .str str ∧ str ≠ "" ∧ str.length ≤ 128) :=
  C8_join_room_contract demoJoinedState "B"
    ⟨none, "bob", some "R", none⟩ (.str "S") (by rfl)

/-- Whether an outbound action is a chat persistence intent. -/
def isPersistOut : OutEvent → Bool
  | .persistChat _ _ => true
  | _ => false

/-- The number of accepted (persisted) chat messages whose server
timestamp lies in the closed interval of milliseconds. -/
def persistCountIn (outs : List OutEvent) (lo hi : Nat) : Nat :=
  outs.countP (fun o =>
    match o with
    | .persistChat _ m => decide (lo ≤ m.timestamp) && decide (m.timestamp ≤ hi)
    | _ => false)

/-- A chat flood: one message at time 0, nine at time 10000 (still inside
the fixed window opened at 0), and ten at time 10001 (a freshly reset
window). -/
def rateDemoEvents : List InEvent :=
  InEvent.chatMessage "A" "m" 0 (.str "R") (.str "hi") ::
    (List.replicate 9 (InEvent.chatMessage "A" "m" 10000 (.str "R") (.str "hi")) ++
     List.replicate 10 (InEvent.chatMessage "A" "m" 10001 (.str "R") (.str "hi")))

/-- C5 counterexample: replaying rateDemoEvents from a reachable state in
which A is connected, 19 chat messages with timestamps between 10000 and
10001 are accepted and fanned out — 19 accepted messages within a
2-millisecond span, far inside one sliding 10-second window, although the
claim allows at most 10; the limiter window is fixed, not sliding. -/
theorem C5_counterexample_sliding_window :
    Reachable demoJoinedState ∧
    persistCountIn (runSeq demoJoinedState rateDemoEvents).2 10000 10001 = 19 ∧
    10001 - 10000 < CHAT_RATE_WINDOW ∧ 19 > CHAT_RATE_LIMIT :=
  ⟨demoJoinedState_reachable, by rfl, by decide, by decide⟩

/-- Whether an outbound action is the rate-limit error sent to sid. -/
def isRateErrTo (sid : SocketId) : OutEvent → Bool
  | .emit t (.errorMessage m) =>
      t == sid && m == "Chat rate limit exceeded. Slow down."
  | _ => false

/-- A well-formed chat-message event of connection sid arriving no later
than the deadline. -/
def ChatEvtOK (sid : SocketId) (deadline : Nat) : InEvent → Prop
  | .chatMessage sid' _ now roomIdV msgV =>
      sid' = sid ∧ now ≤ deadline ∧
      (∃ r, roomIdV = .str r ∧ r ≠ "") ∧
      (∃ m, msgV = .str m ∧ m ≠ "" ∧ 1 ≤ (jsTrim m).length ∧
        (jsTrim m).length ≤ 1000)
  | _ => False

/-- The Date.now() value an inbound chat event carries. -/
def chatTime : InEvent → Nat
  | .chatMessage _ _ now _ _ => now
  | _ => 0

theorem countP_persist_emitRoomAll (s : ServerState) (r : String)
    (p : EmitPayload) : (emitRoomAll s r p).countP isPersistOut = 0 := by
  unfold emitRoomAll
  rw [List.countP_map]
  apply List.countP_eq_zero.mpr
  intro a _
  simp [isPersistOut, Function.comp]

theorem countP_rateErr_emitRoomAll (s : ServerState) (r : String)
    (sid : SocketId) (msg : ChatMsg) :
    (emitRoomAll s r (.chatMessageEv msg)).countP (isRateErrTo sid) = 0 := by
  unfold emitRoomAll
  rw [List.countP_map]
  apply List.countP_eq_zero.mpr
  intro a _
  simp [isRateErrTo, Function.comp]

theorem not_err_emitRoomAll (s : ServerState) (r : String) (msg : ChatMsg)
    (t : SocketId) (m' : String) :
    OutEvent.emit t (.errorMessage m') ∉ emitRoomAll s r (.chatMessageEv msg) := by
  unfold emitRoomAll
  intro hmem
  rcases List.mem_map.mp hmem with ⟨t', _, heq⟩
  simp at heq

theorem chatMessageH_state_limiter (s : ServerState) (sid : SocketId)
    (d : SocketData) (mid : String) (now : Nat) (r m : String)
    (hd : alGet s.sockets sid = some d) (hr : r ≠ "") (hm1 : m ≠ "")
    (hm2 : 1 ≤ (jsTrim m).length) (hm3 : (jsTrim m).length ≤ 1000) :
    (step s (.chatMessage sid mid now (.str r) (.str m))).1.chatLimiter =
      (checkChatRate s.chatLimiter sid now).2 := by
  show (chatMessageH s sid mid now (.str r) (.str m)).1.chatLimiter = _
  have hz : (jsTrim m).length ≠ 0 := by omega
  have hgt : ¬ (1000 < (jsTrim m).length) := by omega
  by_cases hrate : (checkChatRate s.chatLimiter sid now).1 = true
  · simp [chatMessageH, hd, truthy, hr, hm1, hz, hgt, hrate,
      JsVal.isString, JsVal.asString]
  · simp [chatMessageH, hd, truthy, hr, hm1, hz, hgt, hrate,
      JsVal.isString, JsVal.asString]

theorem chatMessageH_rejected (s : ServerState) (sid : SocketId)
    (d : SocketData) (mid : String) (now : Nat) (r m : String)
    (hd : alGet s.sockets sid = some d) (hr : r ≠ "") (hm1 : m ≠ "")
    (hm2 : 1 ≤ (jsTrim m).length) (hm3 : (jsTrim m).length ≤ 1000)
    (hrate : (checkChatRate s.chatLimiter sid now).1 = false) :
    (step s (.chatMessage sid mid now (.str r) (.str m))).2 =
      [.emit sid (.errorMessage "Chat rate limit exceeded. Slow down.")] := by
  show (chatMessageH s sid mid now (.str r) (.str m)).2 = _
  have hz : (jsTrim m).length ≠ 0 := by omega
  have hgt : ¬ (1000 < (jsTrim m).length) := by omega
  simp [chatMessageH, hd, truthy, hr, hm1, hz, hgt, hrate,
    JsVal.isString, JsVal.asString]

theorem checkChatRate_entry (l : List (SocketId × RateEntry)) (sid : SocketId)
    (now k ρ : Nat) (hl : alGet l sid = some ⟨k, ρ⟩) (hnow : now ≤ ρ) :
    checkChatRate l sid now =
      (decide (k + 1 ≤ 10), alSet l sid ⟨k + 1, ρ⟩) := by
  unfold checkChatRate
  rw [hl]
  have hgt : ¬ (now > ρ) := by omega
  simp [hgt, CHAT_RATE_LIMIT, CHAT_RATE_WINDOW]

theorem checkChatRate_fresh (l : List (SocketId × RateEntry)) (sid : SocketId)
    (now : Nat) (hl : alGet l sid = none) :
    checkChatRate l sid now =
      (true, alSet l sid ⟨1, now + CHAT_RATE_WINDOW⟩) := by
  unfold checkChatRate
  rw [hl]
  simp [CHAT_RATE_LIMIT, CHAT_RATE_WINDOW]

theorem chat_step_in_window (s : ServerState) (sid : SocketId)
    (d : SocketData) (k ρ : Nat) (e : InEvent)
    (hd : alGet s.sockets sid = some d)
    (hl : alGet s.chatLimiter sid = some ⟨k, ρ⟩)
    (he : ChatEvtOK sid ρ e) :
    (step s e).1.sockets = s.sockets ∧
    alGet (step s e).1.chatLimiter sid = some ⟨k + 1, ρ⟩ ∧
    (k + 1 ≤ 10 →
      (step s e).2.countP isPersistOut = 1 ∧
      (step s e).2.countP (isRateErrTo sid) = 0 ∧
      (∀ t m', OutEvent.emit t (.errorMessage m') ∉ (step s e).2)) ∧
    (10 < k + 1 →
      (step s e).2 =
        [.emit sid (.errorMessage "Chat rate limit exceeded. Slow down.")]) := by
  cases e with
  | chatMessage sid' mid now roomIdV msgV =>
      rcases he with ⟨hsid, hnow, ⟨r, hrv, hr⟩, ⟨m, hmv, hm1, hm2, hm3⟩⟩
      subst hsid
      subst hrv
      subst hmv
      have hrate := checkChatRate_entry s.chatLimiter sid' now k ρ hl hnow
      have hframe := chatMessageH_frame s sid' mid now (.str r) (.str m)
      have hlim := chatMessageH_state_limiter s sid' d mid now r m hd hr hm1
        hm2 hm3
      refine ⟨hframe.1, ?_, ?_, ?_⟩
      · rw [hlim, hrate]
        exact alGet_alSet_self _ _ _
      · intro hk
        have hratet : (checkChatRate s.chatLimiter sid' now).1 = true := by
          rw [hrate]
          simpa using hk
        have houts := chatMessageH_accepted s sid' d mid now r m hd hr hm1
          hm2 hm3 hratet
        rw [houts]
        refine ⟨?_, ?_, ?_⟩
        · rw [List.countP_cons]
          rw [countP_persist_emitRoomAll]
          simp [isPersistOut]
        · rw [List.countP_cons]
          rw [countP_rateErr_emitRoomAll]
          simp [isRateErrTo]
        · intro t m' hmem
          rcases List.mem_cons.mp hmem with heq | hmem2
          · simp at heq
          · exact not_err_emitRoomAll s r _ t m' hmem2
      · intro hk
        have hratef : (checkChatRate s.chatLimiter sid' now).1 = false := by
          rw [hrate]
          simp
          omega
        exact chatMessageH_rejected s sid' d mid now r m hd hr hm1 hm2 hm3
          hratef
  | connect sid' uid uname => exact he.elim
  | joinRoom sid' v => exact he.elim
  | leaveRoomEv sid' => exact he.elim
  | disconnectEv sid' => exact he.elim
  | createBroadcast sid' v => exact he.elim
  | joinBroadcast sid' v => exact he.elim
  | offerEv sid' toV v => exact he.elim
  | answerEv sid' toV v => exact he.elim
  | iceCandidateEv sid' toV v => exact he.elim
  | chatReaction sid' a b c => exact he.elim
  | toggleMute sid' a b => exact he.elim
  | toggleVideo sid' a b => exact he.elim
  | screenShareStart sid' a => exact he.elim
  | screenShareStop sid' a => exact he.elim
  | handRaise sid' a b => exact he.elim
  | approveUser sid' a b => exact he.elim
  | rejectUser sid' a b => exact he.elim

theorem chat_run_in_window (es : List InEvent) (s : ServerState)
    (sid : SocketId) (d : SocketData) (k ρ : Nat)
    (hd : alGet s.sockets sid = some d)
    (hl : alGet s.chatLimiter sid = some ⟨k, ρ⟩)
    (hes : ∀ e ∈ es, ChatEvtOK sid ρ e) :
    (runSeq s es).2.countP isPersistOut = min es.length (10 - k) ∧
    (runSeq s es).2.countP (isRateErrTo sid) = es.length - (10 - k) ∧
    (∀ t m', OutEvent.emit t (.errorMessage m') ∈ (runSeq s es).2 →
      t = sid ∧ m' = "Chat rate limit exceeded. Slow down.") := by
  induction es generalizing s k with
  | nil => simp [runSeq]
  | cons e rest ih =>
      have hstep := chat_step_in_window s sid d k ρ e hd hl
        (hes e (List.mem_cons_self e rest))
      have hd' : alGet (step s e).1.sockets sid = some d := by
        rw [hstep.1]; exact hd
      have hrest := ih (step s e).1 (k + 1) hd' hstep.2.1
        (fun e' he' => hes e' (List.mem_cons_of_mem _ he'))
      rw [runSeq_cons]
      show ((step s e).2 ++ (runSeq (step s e).1 rest).2).countP isPersistOut =
          _ ∧ _ ∧ _
      rw [List.countP_append]
      constructor
      · by_cases hk : k + 1 ≤ 10
        · rw [(hstep.2.2.1 hk).1, hrest.1]
          simp only [List.length_cons]
          omega
        · rw [hstep.2.2.2 (by omega), hrest.1]
          simp only [List.length_cons, List.countP_cons]
          simp [isPersistOut]
          omega
      · constructor
        · rw [List.countP_append]
          by_cases hk : k + 1 ≤ 10
          · rw [(hstep.2.2.1 hk).2.1, hrest.2.1]
            simp only [List.length_cons]
            omega
          · rw [hstep.2.2.2 (by omega), hrest.2.1]
            simp only [List.length_cons, List.countP_cons]
            simp [isRateErrTo]
            omega
        · intro t m' hmem
          rcases List.mem_append.mp hmem with hmem | hmem
          · by_cases hk : k + 1 ≤ 10
            · exact absurd hmem ((hstep.2.2.1 hk).2.2 t m')
            · rw [hstep.2.2.2 (by omega)] at hmem
              rcases List.mem_singleton.mp hmem with heq
              constructor
              · injection heq with h1 h2
              · injection heq with h1 h2
                injection h2 with h3
          · exact hrest.2.2 t m' hmem

theorem chat_step_fresh (s : ServerState) (sid : SocketId) (d : SocketData)
    (e : InEvent) (hd : alGet s.sockets sid = some d)
    (hl : alGet s.chatLimiter sid = none)
    (he : ChatEvtOK sid (chatTime e) e) :
    (step s e).1.sockets = s.sockets ∧
    alGet (step s e).1.chatLimiter sid =
      some ⟨1, chatTime e + CHAT_RATE_WINDOW⟩ ∧
    (step s e).2.countP isPersistOut = 1 ∧
    (step s e).2.countP (isRateErrTo sid) = 0 ∧
    (∀ t m', OutEvent.emit t (.errorMessage m') ∉ (step s e).2) := by
  cases e with
  | chatMessage sid' mid now roomIdV msgV =>
      rcases he with ⟨hsid, _, ⟨r, hrv, hr⟩, ⟨m, hmv, hm1, hm2, hm3⟩⟩
      subst hsid
      subst hrv
      subst hmv
      have hrate := checkChatRate_fresh s.chatLimiter sid' now hl
      have hframe := chatMessageH_frame s sid' mid now (.str r) (.str m)
      have hlim := chatMessageH_state_limiter s sid' d mid now r m hd hr hm1
        hm2 hm3
      have hratet : (checkChatRate s.chatLimiter sid' now).1 = true := by
        rw [hrate]
      have houts := chatMessageH_accepted s sid' d mid now r m hd hr hm1
        hm2 hm3 hratet
      refine ⟨hframe.1, ?_, ?_, ?_, ?_⟩
      · rw [hlim, hrate]
        exact alGet_alSet_self _ _ _
      · rw [houts, List.countP_cons, countP_persist_emitRoomAll]
        simp [isPersistOut]
      · rw [houts, List.countP_cons, countP_rateErr_emitRoomAll]
        simp [isRateErrTo]
      · intro t m' hmem
        rw [houts] at hmem
        rcases List.mem_cons.mp hmem with heq | hmem2
        · simp at heq
        · exact not_err_emitRoomAll s r _ t m' hmem2
  | connect sid' uid uname => exact he.elim
  | joinRoom sid' v => exact he.elim
  | leaveRoomEv sid' => exact he.elim
  | disconnectEv sid' => exact he.elim
  | createBroadcast sid' v => exact he.elim
  | joinBroadcast sid' v => exact he.elim
  | offerEv sid' toV v => exact he.elim
  | answerEv sid' toV v => exact he.elim
  | iceCandidateEv sid' toV v => exact he.elim
  | chatReaction sid' a b c => exact he.elim
  | toggleMute sid' a b => exact he.elim
  | toggleVideo sid' a b => exact he.elim
  | screenShareStart sid' a => exact he.elim
  | screenShareStop sid' a => exact he.elim
  | handRaise sid' a b => exact he.elim
  | approveUser sid' a b => exact he.elim
  | rejectUser sid' a b => exact he.elim

/-- C5 (amended): the chat limiter is a fixed window, not a sliding one: a
connection's first message after expiry opens a 10-second window, and for
any sequence of well-formed chat messages whose times fall inside that
window, exactly the first 10 are accepted (persisted and fanned out);
every further message is dropped, with the rate-limit error-message going
to the sender and to nobody else and with no fan-out for the dropped
message.  Across a window boundary, up to 20 messages can be accepted
inside one sliding 10-second span, as the counterexample shows. -/
theorem C5_amended_fixed_window_limit (s : ServerState) (sid : SocketId)
    (d : SocketData) (e0 : InEvent) (rest : List InEvent)
    (hd : alGet s.sockets sid = some d)
    (hl : alGet s.chatLimiter sid = none)
    (he0 : ChatEvtOK sid (chatTime e0) e0)
    (hrest : ∀ e ∈ rest, ChatEvtOK sid (chatTime e0 + CHAT_RATE_WINDOW) e) :
    (runSeq s (e0 :: rest)).2.countP isPersistOut =
      min (e0 :: rest).length CHAT_RATE_LIMIT ∧
    (runSeq s (e0 :: rest)).2.countP (isRateErrTo sid) =
      (e0 :: rest).length - CHAT_RATE_LIMIT ∧
    (∀ t m', OutEvent.emit t (.errorMessage m') ∈ (runSeq s (e0 :: rest)).2 →
      t = sid ∧ m' = "Chat rate limit exceeded. Slow down.") := by
  have hstep := chat_step_fresh s sid d e0 hd hl he0
  have hd' : alGet (step s e0).1.sockets sid = some d := by
    rw [hstep.1]; exact hd
  have hrest' := chat_run_in_window rest (step s e0).1 sid d 1
    (chatTime e0 + CHAT_RATE_WINDOW) hd' hstep.2.1 hrest
  rw [runSeq_cons]
  refine ⟨?_, ?_, ?_⟩
  · show ((step s e0).2 ++ (runSeq (step s e0).1 rest).2).countP
      isPersistOut = _
    rw [List.countP_append, hstep.2.2.1, hrest'.1]
    simp only [List.length_cons, CHAT_RATE_LIMIT]
    omega
  · show ((step s e0).2 ++ (runSeq (step s e0).1 rest).2).countP
      (isRateErrTo sid) = _
    rw [List.countP_append, hstep.2.2.2.1, hrest'.2.1]
    simp only [List.length_cons, CHAT_RATE_LIMIT]
    omega
  · intro t m' hmem
    rcases List.mem_append.mp hmem with hmem | hmem
    · exact absurd hmem (hstep.2.2.2.2 t m')
    · exact hrest'.2.2 t m' hmem

theorem C5_amended_fixed_window_limit_witness :
    (runSeq demoJoinedState
      (InEvent.chatMessage "A" "m" 0 (.str "R") (.str "hi") ::
        List.replicate 11
          (InEvent.chatMessage "A" "m" 500 (.str "R") (.str "hi")))).2.countP
        isPersistOut =
      min (InEvent.chatMessage "A" "m" 0 (.str "R") (.str "hi") ::
        List.replicate 11
          (InEvent.chatMessage "A" "m" 500 (.str "R") (.str "hi"))).length
        CHAT_RATE_LIMIT ∧
    (runSeq demoJoinedState
      (InEvent.chatMessage "A" "m" 0 (.str "R") (.str "hi") ::
        List.replicate 11
          (InEvent.chatMessage "A" "m" 500 (.str "R") (.str "hi")))).2.countP
        (isRateErrTo "A") =
      (InEvent.chatMessage "A" "m" 0 (.str "R") (.str "hi") ::
        List.replicate 11
          (InEvent.chatMessage "A" "m" 500 (.str "R") (.str "hi"))).length -
        CHAT_RATE_LIMIT ∧
    (∀ t m', OutEvent.emit t (.errorMessage m') ∈
      (runSeq demoJoinedState
        (InEvent.chatMessage "A" "m" 0 (.str "R") (.str "hi") ::
          List.replicate 11
            (InEvent.chatMessage "A" "m" 500 (.str "R") (.str "hi")))).2 →
      t = "A" ∧ m' = "Chat rate limit exceeded. Slow down.") :=
  C5_amended_fixed_window_limit demoJoinedState "A"
    ⟨none, "alice", some "R", none⟩
    (InEvent.chatMessage "A" "m" 0 (.str "R") (.str "hi"))
    (List.replicate 11 (InEvent.chatMessage "A" "m" 500 (.str "R") (.str "hi")))
    (by rfl) (by rfl)
    ⟨rfl, Nat.le_refl 0, ⟨"R", rfl, by decide⟩,
      ⟨"hi", rfl, by decide, by decide, by decide⟩⟩
    (by
      intro e he
      rw [List.eq_of_mem_replicate he]
      exact ⟨rfl, by decide, ⟨"R", rfl, by decide⟩,
        ⟨"hi", rfl, by decide, by decide, by decide⟩⟩)
